import Mathlib

/-!
Verification development for the gauge specification executor
(package `execution`, file `specExecutor.go` of the repository snapshot).

The Go source is shallowly embedded: every Go function of the executor
becomes a Lean definition with the executor's mutable state passed
explicitly.  Messages written to the runner connection are collected in a
trace so that temporal claims ("message X is never sent") become claims
about that trace.  External collaborators of the executor (the runner
channel, the parameter resolver, the `result` bookkeeping package and the
`gauge` data package) are either inputs of the model (the channel) or are
modelled from the specification, as marked in the doc comments below.
-/

namespace GaugeExec

/-- Wire type `gauge_messages.ProtoExecutionResult` (proto2 optional scalars
are `Option`s; a `GetX` getter on a missing field yields the zero value). -/
structure ProtoExecutionResult where
  failed : Option Bool := none
  recoverableError : Option Bool := none
  executionTime : Option Int := none
  stackTrace : Option String := none
  errorMessage : Option String := none
  message : List String := []
  deriving Repr, DecidableEq

/-- Getter `GetFailed` (false when the optional field is absent). -/
def ProtoExecutionResult.getFailed (r : ProtoExecutionResult) : Bool :=
  r.failed.getD false

/-- Getter `GetRecoverableError`. -/
def ProtoExecutionResult.getRecoverableError (r : ProtoExecutionResult) : Bool :=
  r.recoverableError.getD false

/-- Getter `GetExecutionTime`. -/
def ProtoExecutionResult.getExecutionTime (r : ProtoExecutionResult) : Int :=
  r.executionTime.getD 0

/-- Getter `GetErrorMessage`. -/
def ProtoExecutionResult.getErrorMessage (r : ProtoExecutionResult) : String :=
  r.errorMessage.getD ""

/-- Getter `GetStackTrace`. -/
def ProtoExecutionResult.getStackTrace (r : ProtoExecutionResult) : String :=
  r.stackTrace.getD ""

/-- Wire type `gauge_messages.ProtoHookFailure`. -/
structure ProtoHookFailure where
  errorMessage : String := ""
  stackTrace : String := ""
  deriving Repr, DecidableEq

/-- Modelled from the spec: `result.GetProtoHookFailure` of the repository's
`execution/result` package (not under src/) packages a hook's failure
detail (error message and stack trace) into a `ProtoHookFailure`. -/
def getProtoHookFailure (r : ProtoExecutionResult) : ProtoHookFailure :=
  { errorMessage := r.getErrorMessage, stackTrace := r.getStackTrace }

/-- Wire type `gauge_messages.ProtoStepExecutionResult`. -/
structure ProtoStepExecutionResult where
  executionResult : Option ProtoExecutionResult := none
  preHookFailure : Option ProtoHookFailure := none
  postHookFailure : Option ProtoHookFailure := none
  skipped : Option Bool := none
  skippedReason : Option String := none
  deriving Repr, DecidableEq

/-- Wire type `gauge_messages.Parameter` (only the resolved value is
relevant to the executor). -/
structure Parameter where
  value : String
  deriving Repr, DecidableEq

/-- Wire type `gauge_messages.Fragment`: either literal step text or a
parameter slot. -/
inductive Fragment where
  | text (s : String)
  | parameter (p : Parameter)
  deriving Repr, DecidableEq

/-- Fragment filter used by `getParameters` and `updateProtoStepParameters`. -/
def Fragment.isParameter : Fragment → Bool
  | Fragment.parameter _ => true
  | Fragment.text _ => false

/-- The step-shaped part of a `gauge_messages.ProtoStep` / the
`ConceptStep` handle of a `ProtoConcept`. -/
structure ProtoStepData where
  actualText : String := ""
  parsedText : String := ""
  fragments : List Fragment := []
  stepExecutionResult : Option ProtoStepExecutionResult := none
  deriving Repr, DecidableEq

/-- Wire type `gauge_messages.ProtoItem`: a step, a concept (its
representative step handle, its child items and its aggregated execution
result) or a structural item such as a comment. -/
inductive ProtoItem where
  | step (s : ProtoStepData)
  | concept (conceptStep : ProtoStepData) (steps : List ProtoItem)
      (conceptExecutionResult : Option ProtoStepExecutionResult)
  | comment
  deriving Repr

/-- Wire type `gauge_messages.ExecuteStepRequest`. -/
structure ExecuteStepRequest where
  parsedStepText : String
  actualStepText : String
  parameters : List Parameter
  deriving Repr, DecidableEq

/-- Wire type `gauge_messages.SpecInfo` inside `ExecutionInfo`. -/
structure SpecInfo where
  name : String
  fileName : String
  isFailed : Bool
  tags : List String
  deriving Repr, DecidableEq

/-- Wire type `gauge_messages.ScenarioInfo` inside `ExecutionInfo`. -/
structure ScenarioInfo where
  name : String
  tags : List String
  isFailed : Bool
  deriving Repr, DecidableEq

/-- Wire type `gauge_messages.StepInfo` inside `ExecutionInfo`. -/
structure StepInfo where
  step : ExecuteStepRequest
  isFailed : Bool
  deriving Repr, DecidableEq

/-- Wire type `gauge_messages.ExecutionInfo`: the run-scoped mirror of what
is currently executing, sent with every hook message. -/
structure ExecutionInfo where
  currentSpec : Option SpecInfo := none
  currentScenario : Option ScenarioInfo := none
  currentStep : Option StepInfo := none
  deriving Repr, DecidableEq

/-- A message sent to the worker over the runner connection (the
`gauge_messages.Message` kinds the executor produces). -/
inductive Msg where
  | specExecutionStarting (info : ExecutionInfo)
  | specExecutionEnding (info : ExecutionInfo)
  | scenarioExecutionStarting (info : ExecutionInfo)
  | scenarioExecutionEnding (info : ExecutionInfo)
  | stepExecutionStarting (info : ExecutionInfo)
  | stepExecutionEnding (info : ExecutionInfo)
  | executeStep (req : ExecuteStepRequest)
  deriving Repr, DecidableEq

/-- The message type of a worker response. -/
inductive ResponseMsgType where
  | executionStatusResponse
  | other (name : String)
  deriving Repr, DecidableEq

/-- Display name of a response type, used in the type-mismatch error text. -/
def ResponseMsgType.displayName : ResponseMsgType → String
  | ResponseMsgType.executionStatusResponse => "ExecutionStatusResponse"
  | ResponseMsgType.other n => n

/-- A worker response: its type and (for an execution-status response) the
possibly-absent inner execution result. -/
structure Response where
  messageType : ResponseMsgType
  executionResult : Option ProtoExecutionResult := none
  deriving Repr, DecidableEq

/-- Source-level parameter placeholder inside a step's text: a static
value or a dynamic reference into the active data-table row. -/
inductive ParamTemplate where
  | static (value : String)
  | dynamic (name : String)
  deriving Repr, DecidableEq

/-- Source-level fragment of a `gauge.Step`'s text. -/
inductive FragmentTemplate where
  | text (s : String)
  | param (p : ParamTemplate)
  deriving Repr, DecidableEq

/-- Source type `gauge.Step`: parsed/actual text, fragments, the concept
flag and (for a concept) the ordered child steps.  Steps carry a numeric
`id` standing in for Go pointer identity, which is what the skip maps are
keyed by. -/
inductive GaugeStep where
  | mk (id : Nat) (actualText parsedText lineText : String) (lineNo : Nat)
      (fragments : List FragmentTemplate) (isConcept : Bool)
      (conceptSteps : List GaugeStep)

def GaugeStep.id : GaugeStep → Nat
  | GaugeStep.mk i _ _ _ _ _ _ _ => i

def GaugeStep.actualText : GaugeStep → String
  | GaugeStep.mk _ a _ _ _ _ _ _ => a

def GaugeStep.parsedText : GaugeStep → String
  | GaugeStep.mk _ _ p _ _ _ _ _ => p

def GaugeStep.lineText : GaugeStep → String
  | GaugeStep.mk _ _ _ l _ _ _ _ => l

def GaugeStep.lineNo : GaugeStep → Nat
  | GaugeStep.mk _ _ _ _ n _ _ _ => n

def GaugeStep.fragments : GaugeStep → List FragmentTemplate
  | GaugeStep.mk _ _ _ _ _ f _ _ => f

def GaugeStep.isConcept : GaugeStep → Bool
  | GaugeStep.mk _ _ _ _ _ _ c _ => c

def GaugeStep.conceptSteps : GaugeStep → List GaugeStep
  | GaugeStep.mk _ _ _ _ _ _ _ s => s

/-- Source type `gauge.Item`, a closed set of item kinds: the executor
distinguishes steps, comments and tear-down markers (`gauge.TearDownKind`). -/
inductive Item where
  | step (s : GaugeStep)
  | comment
  | tearDown

/-- `item.Kind() != gauge.TearDownKind`, the filter of `resolveItems`. -/
def Item.isTearDownKind : Item → Bool
  | Item.tearDown => true
  | _ => false

/-- Source type `gauge.Scenario` (heading, tags and the ordered items). -/
structure Scenario where
  id : Nat
  heading : String
  tags : Option (List String) := none
  items : List Item := []

/-- Source type `gauge.Table` (headers plus rows). -/
structure Table where
  headers : List String := []
  rows : List (List String) := []

/-- `Table.GetRowCount`. -/
def Table.rowCount (t : Table) : Nat := t.rows.length

/-- Source type `gauge.Specification`. -/
structure Specification where
  heading : String
  fileName : String
  tags : Option (List String) := none
  contexts : List GaugeStep := []
  tearDownSteps : List GaugeStep := []
  dataTable : Table := {}
  scenarios : List Scenario := []
  specItems : List Item := []

/-- One entry of the validation error lists held by `validationErrMaps`
(`err.fileName`, `err.step.LineNo`, `err.Error()` and `err.step.LineText`
are the parts the executor reads; `err.Error()` is modelled as the stored
message). -/
structure StepValidationError where
  fileName : String
  stepLineNo : Nat
  stepLineText : String
  errMessage : String
  deriving Repr, DecidableEq

/-- Source type `validationErrMaps`: the three precomputed skip maps.  The
executor runs a single specification, so the spec-level map degenerates to
a flag for that specification; the scenario and step maps are keyed by the
identity of the scenario / step (association list on `id`). -/
structure ValidationErrMaps where
  specSkipped : Bool := false
  scenarioErrs : List (Nat × List StepValidationError) := []
  stepErrs : List Nat := []

/-- Presence lookup `errMap.scenarioErrs[scenario]`. -/
def ValidationErrMaps.lookupScenario (m : ValidationErrMaps) (scenario : Scenario) :
    Option (List StepValidationError) :=
  (m.scenarioErrs.find? (fun p => p.1 = scenario.id)).map (fun p => p.2)

/-- Presence check `errMap.stepErrs[step]`. -/
def ValidationErrMaps.stepInMap (m : ValidationErrMaps) (step : GaugeStep) : Bool :=
  m.stepErrs.contains step.id

/-- Source type `indexRange` (the inclusive data-table row range; the field
named `end` in Go is `endIdx` here since `end` is a Lean keyword). -/
structure IndexRange where
  start : Nat := 0
  endIdx : Nat := 0

/-- The immutable inputs of one `specExecutor`: the specification, the row
range, the skip maps and the behaviour of the runner connection.  The
channel is the external worker: given the messages already sent and the
message now being sent it either fails with a transport error or produces
a response (spec section 2, Runner Channel). -/
structure Env where
  specification : Specification
  dataTableIndex : IndexRange := {}
  errMap : ValidationErrMaps := {}
  chan : List Msg → Msg → Except String Response

/-- The executor state threaded through item/step execution: the ordered
trace of messages sent to the worker and the `currentExecutionInfo`
mirror.  (`specResult` and `currentTableRow` are threaded separately at
the spec/scenario level, where the source touches them.) -/
structure RunState where
  trace : List Msg := []
  info : ExecutionInfo := {}

/-- Source type `result.ScenarioResult`: a wrapper around the
`ProtoScenario` being built. -/
structure ProtoScenario where
  scenarioHeading : String
  failed : Option Bool := none
  skipped : Option Bool := none
  skipErrors : List String := []
  contexts : List ProtoItem := []
  scenarioItems : List ProtoItem := []
  tearDownSteps : List ProtoItem := []
  executionTime : Option Int := none
  preHookFailure : Option ProtoHookFailure := none
  postHookFailure : Option ProtoHookFailure := none

/-- Source type `result.ScenarioResult`. -/
structure ScenarioResult where
  protoScenario : ProtoScenario

/-- Source type `result.SpecResult` (the fields the executor reads or
writes). -/
structure SpecResult where
  specHeading : String
  specItems : List ProtoItem := []
  scenarioResults : List ScenarioResult := []
  tableDrivenResults : List (List ScenarioResult) := []
  isTableDriven : Bool := false
  scenarioSkippedCount : Nat := 0
  skipped : Bool := false
  executionTime : Int := 0
  preHookFailure : Option ProtoHookFailure := none
  postHookFailure : Option ProtoHookFailure := none

/-- Modelled from the spec: `gauge.NewSpecResult` of the repository (not
under src/) creates the empty result shell for a specification. -/
def newSpecResult (spec : Specification) : SpecResult :=
  { specHeading := spec.heading }

/-- Modelled from the spec: `gauge.NewProtoScenario` of the repository (not
under src/) creates a scenario result shell with the heading and a cleared
failed flag. -/
def newProtoScenario (scenario : Scenario) : ProtoScenario :=
  { scenarioHeading := scenario.heading, failed := some false }

/-- Modelled from the spec: `result.ScenarioResult.SetFailure` marks the
scenario result failed (monotone flag, spec section 4.2). -/
def ScenarioResult.setFailure (sr : ScenarioResult) : ScenarioResult :=
  { protoScenario := { sr.protoScenario with failed := some true } }

/-- Modelled from the spec: `result.ScenarioResult.GetFailure` reads the
scenario result's failed flag. -/
def ScenarioResult.getFailure (sr : ScenarioResult) : Bool :=
  sr.protoScenario.failed.getD false

/-- Modelled from the spec: `result.ScenarioResult.AddExecTime` adds a
hook's execution time into the scenario's running total (spec 4.6 step 3). -/
def ScenarioResult.addExecTime (sr : ScenarioResult) (t : Int) : ScenarioResult :=
  { protoScenario :=
      { sr.protoScenario with
        executionTime := some (sr.protoScenario.executionTime.getD 0 + t) } }

/-- Modelled from the spec: `result.AddPreHook` on a scenario result records
the before-hook failure detail as a first-class result entry (spec 7). -/
def ScenarioResult.addPreHook (sr : ScenarioResult) (r : ProtoExecutionResult) :
    ScenarioResult :=
  { protoScenario := { sr.protoScenario with preHookFailure := some (getProtoHookFailure r) } }

/-- Modelled from the spec: `result.AddPostHook` on a scenario result
records the after-hook failure detail when the hook failed (spec 4.2 step
6, "record failure"). -/
def ScenarioResult.addPostHook (sr : ScenarioResult) (r : ProtoExecutionResult) :
    ScenarioResult :=
  if r.getFailed then
    { protoScenario := { sr.protoScenario with postHookFailure := some (getProtoHookFailure r) } }
  else sr

/-- Modelled from the spec: `result.AddPreHook` on a spec result. -/
def SpecResult.addPreHook (res : SpecResult) (r : ProtoExecutionResult) : SpecResult :=
  { res with preHookFailure := some (getProtoHookFailure r) }

/-- Modelled from the spec: `result.AddPostHook` on a spec result. -/
def SpecResult.addPostHook (res : SpecResult) (r : ProtoExecutionResult) : SpecResult :=
  { res with postHookFailure := some (getProtoHookFailure r) }

/-- Modelled from the spec: `result.SpecResult.AddExecTime`. -/
def SpecResult.addExecTime (res : SpecResult) (t : Int) : SpecResult :=
  { res with executionTime := res.executionTime + t }

/-- Modelled from the spec: `result.SpecResult.AddSpecItems`. -/
def SpecResult.addSpecItems (res : SpecResult) (items : List ProtoItem) : SpecResult :=
  { res with specItems := res.specItems ++ items }

/-- Modelled from the spec: `result.SpecResult.AddScenarioResults` appends
the scenario results of one execution pass. -/
def SpecResult.addScenarioResults (res : SpecResult) (srs : List ScenarioResult) : SpecResult :=
  { res with scenarioResults := res.scenarioResults ++ srs }

/-- Modelled from the spec: `result.SpecResult.AddTableDrivenScenarioResult`
attaches the per-row lists of scenario results of a table-driven run. -/
def SpecResult.addTableDrivenScenarioResult (res : SpecResult)
    (rows : List (List ScenarioResult)) : SpecResult :=
  { res with tableDrivenResults := rows, isTableDriven := true }

/-- The per-row binding of data-table column name to value used during
resolution (`executor.dataTableLookup()`, built from the specification's
table and the current row). -/
def dataTableLookup (env : Env) (row : Nat) : List (String × String) :=
  env.specification.dataTable.headers.zip (env.specification.dataTable.rows.getD row [])

/-- Association-list lookup used by the modelled parameter resolver. -/
def lookupValue (lookup : List (String × String)) (name : String) : String :=
  ((lookup.find? (fun p => p.1 = name)).map (fun p => p.2)).getD ""

/-- Modelled from the spec: `parser.ParamResolver.GetResolvedParams` of the
repository (not under src/) is a pure function substituting the active
row-scoped lookup values into the step's parameter placeholders
(spec section 2, Parameter Resolver). -/
def getResolvedParams (step : GaugeStep) (lookup : List (String × String)) :
    List Parameter :=
  step.fragments.filterMap (fun f =>
    match f with
    | FragmentTemplate.text _ => none
    | FragmentTemplate.param (ParamTemplate.static v) => some { value := v }
    | FragmentTemplate.param (ParamTemplate.dynamic n) => some { value := lookupValue lookup n })

/-- Modelled from the spec: the structural step-to-proto conversion done by
`gauge.ConvertToProtoItem` of the repository (not under src/): fragments
carry over, parameter placeholders become unresolved proto parameters. -/
def convertFragment : FragmentTemplate → Fragment
  | FragmentTemplate.text s => Fragment.text s
  | FragmentTemplate.param (ParamTemplate.static v) => Fragment.parameter { value := v }
  | FragmentTemplate.param (ParamTemplate.dynamic n) => Fragment.parameter { value := n }

/-- Modelled from the spec: the step-shaped part of
`gauge.ConvertToProtoItem` on a step. -/
def convertStepToProtoStep (s : GaugeStep) : ProtoStepData :=
  { actualText := s.actualText, parsedText := s.parsedText,
    fragments := s.fragments.map convertFragment }

/-- `updateProtoStepParameters`: walk the proto fragments and replace each
parameter fragment with the next resolved parameter, in order. -/
def updateFragments : List Fragment → List Parameter → List Fragment
  | [], _ => []
  | Fragment.text s :: fs, ps => Fragment.text s :: updateFragments fs ps
  | Fragment.parameter q :: fs, [] => Fragment.parameter q :: updateFragments fs []
  | Fragment.parameter _ :: fs, p :: ps => Fragment.parameter p :: updateFragments fs ps

/-- `updateProtoStepParameters` of the source (the Go loop indexes the
parameter list by a running counter over parameter fragments). -/
def updateProtoStepParameters (ps : ProtoStepData) (params : List Parameter) : ProtoStepData :=
  { ps with fragments := updateFragments ps.fragments params }

/-- `setSkipInfo` of the source: attach a fresh step execution result with
the skip flag cleared, then set it (with the fixed reason string, kept
with the source's spelling) when the step is in the step-level skip map. -/
def setSkipInfo (env : Env) (protoStep : ProtoStepData) (step : GaugeStep) : ProtoStepData :=
  let base : ProtoStepExecutionResult := { skipped := some false }
  if env.errMap.stepInMap step then
    let marked : ProtoStepExecutionResult :=
      { base with
          skipped := some true,
          skippedReason := some "Step implemenatation not found" }
    { protoStep with stepExecutionResult := some marked }
  else
    { protoStep with stepExecutionResult := some base }

/-- `resolveToProtoStepItem` of the source: convert the step, resolve its
parameters against the active-row lookup and annotate its skip status. -/
def resolveToProtoStepItem (env : Env) (row : Nat) (step : GaugeStep) : ProtoItem :=
  let protoStepItem := convertStepToProtoStep step
  let parameters := getResolvedParams step (dataTableLookup env row)
  let protoStepItem := updateProtoStepParameters protoStepItem parameters
  ProtoItem.step (setSkipInfo env protoStepItem step)

/-- `resolveToProtoConceptItem` of the source, as a pure recursion over the
concept's child steps: the concept's representative step gets a fresh
execution result whose skip flag ends up cleared; concept children recurse,
plain children get resolved parameters and their individual skip
annotation.  (The source's in-place rebinding of the shared template's
parent pointers is modelled separately in the `ConceptHeap` section.) -/
def resolveToProtoConceptItem (env : Env) (row : Nat) (concept : GaugeStep) : ProtoItem :=
  let steps := concept.conceptSteps.attach.map (fun x =>
    if x.1.isConcept then
      resolveToProtoConceptItem env row x.1
    else
      let ps := convertStepToProtoStep x.1
      let ps := updateProtoStepParameters ps (getResolvedParams x.1 (dataTableLookup env row))
      ProtoItem.step (setSkipInfo env ps x.1))
  let conceptStep :=
    { convertStepToProtoStep concept with
      stepExecutionResult := some ({ skipped := some false } : ProtoStepExecutionResult) }
  ProtoItem.concept conceptStep steps none
termination_by sizeOf concept
decreasing_by
  cases concept
  have h := List.sizeOf_lt_of_mem x.2
  simp only [GaugeStep.conceptSteps] at h
  simp
  omega

/-- `resolveToProtoItem` of the source: dispatch on item kind. -/
def resolveToProtoItem (env : Env) (row : Nat) (item : Item) : ProtoItem :=
  match item with
  | Item.step s => if s.isConcept then resolveToProtoConceptItem env row s
                   else resolveToProtoStepItem env row s
  | Item.comment => ProtoItem.comment
  | Item.tearDown => ProtoItem.comment

/-- `resolveItems` of the source: resolve every item that is not of
tear-down kind. -/
def resolveItems (env : Env) (row : Nat) (items : List Item) : List ProtoItem :=
  (items.filter (fun i => ¬ i.isTearDownKind)).map (resolveToProtoItem env row)

/-- `getContextItemsForScenarioExecution` of the source: view the steps as
items and resolve them. -/
def getContextItemsForScenarioExecution (env : Env) (row : Nat)
    (steps : List GaugeStep) : List ProtoItem :=
  resolveItems env row (steps.map Item.step)

/-- `addAllItemsForScenarioExecution` of the source: materialize the
scenario's shell (resolved contexts, tear-down items and the scenario's
own items). -/
def addAllItemsForScenarioExecution (env : Env) (row : Nat) (scenario : Scenario)
    (sr : ScenarioResult) : ScenarioResult :=
  { protoScenario :=
      { sr.protoScenario with
        contexts := getContextItemsForScenarioExecution env row env.specification.contexts,
        tearDownSteps := getContextItemsForScenarioExecution env row env.specification.tearDownSteps,
        scenarioItems := resolveItems env row scenario.items } }

/-- The execution result a concept's aggregation walk reads off a child
item: `GetStep().GetStepExecutionResult().GetExecutionResult()` for a step
child, `GetConcept().GetConceptExecutionResult().GetExecutionResult()` for
a concept child; nothing for other items. -/
def itemExecResult : ProtoItem → Option ProtoExecutionResult
  | ProtoItem.step s => s.stepExecutionResult.bind (fun r => r.executionResult)
  | ProtoItem.concept _ _ res => res.bind (fun r => r.executionResult)
  | ProtoItem.comment => none

/-- `GetFailed` of a child's execution result (false when absent). -/
def itemFailed (i : ProtoItem) : Bool :=
  ((itemExecResult i).map (fun r => r.getFailed)).getD false

/-- `GetExecutionTime` of a child's execution result (0 when absent). -/
def itemExecTime (i : ProtoItem) : Int :=
  ((itemExecResult i).bind (fun r => r.executionTime)).getD 0

/-- Sum of the children's recorded execution times. -/
def sumItemTimes (l : List ProtoItem) : Int :=
  (l.map itemExecTime).sum

mutual

/-- Structural size of a proto item, ignoring the execution-result fields
(whose contents change during execution); used as the termination measure
of the execution walk. -/
def ProtoItem.msize : ProtoItem → Nat
  | ProtoItem.step _ => 1
  | ProtoItem.comment => 1
  | ProtoItem.concept _ steps _ => 2 + msizeList steps

/-- Structural size of a list of proto items. -/
def msizeList : List ProtoItem → Nat
  | [] => 0
  | x :: xs => ProtoItem.msize x + msizeList xs

end

theorem msize_pos (i : ProtoItem) : 1 ≤ i.msize := by
  cases i <;> (simp only [ProtoItem.msize]; omega)

theorem msizeList_append (l1 l2 : List ProtoItem) :
    msizeList (l1 ++ l2) = msizeList l1 + msizeList l2 := by
  induction l1 with
  | nil => simp [msizeList]
  | cons x xs ih => simp [msizeList, ih]; omega

/-- Overwrite the execution-time of a failing child's stored execution
result in place: the step child keeps its step execution result but its
inner `ExecutionResult` is the shared, time-overwritten object. -/
def overwriteStepResult (s : ProtoStepData) (r' : ProtoExecutionResult) : ProtoStepData :=
  let pser := { s.stepExecutionResult.getD {} with executionResult := some r' }
  { s with stepExecutionResult := some pser }

/-- For a failing concept child the shared execution-result object is
reachable both through its `ConceptExecutionResult` and through its
`ConceptStep.StepExecutionResult` (both were set to the same object by the
child's own aggregation), so overwriting its time updates both slots. -/
def overwriteConceptChild (cs : ProtoStepData) (steps : List ProtoItem)
    (res : Option ProtoStepExecutionResult) (r' : ProtoExecutionResult) : ProtoItem :=
  ProtoItem.concept
    (overwriteStepResult cs r')
    steps
    (some ({ res.getD {} with executionResult := some r' }))

/-- The walk of `setExecutionResultForConcept` (source lines 410-438):
accumulate the children's execution times in order; at the first child
whose result is failed, overwrite that shared result's execution time with
the accumulated total and surface it; otherwise report the grand total. -/
def setExecResultWalk (acc : Int) :
    List ProtoItem → List ProtoItem × Option ProtoExecutionResult × Int
  | [] => ([], none, acc)
  | ProtoItem.concept cs steps res :: rest =>
    match res.bind (fun p => p.executionResult) with
    | some rr =>
      let acc' := acc + rr.getExecutionTime
      if rr.getFailed then
        let r' := { rr with executionTime := some acc' }
        (overwriteConceptChild cs steps res r' :: rest, some r', acc')
      else
        let (rest', f, a) := setExecResultWalk acc' rest
        (ProtoItem.concept cs steps res :: rest', f, a)
    | none =>
      let (rest', f, a) := setExecResultWalk acc rest
      (ProtoItem.concept cs steps res :: rest', f, a)
  | ProtoItem.step s :: rest =>
    match s.stepExecutionResult.bind (fun p => p.executionResult) with
    | some rr =>
      let acc' := acc + rr.getExecutionTime
      if rr.getFailed then
        let r' := { rr with executionTime := some acc' }
        (ProtoItem.step (overwriteStepResult s r') :: rest, some r', acc')
      else
        let (rest', f, a) := setExecResultWalk acc' rest
        (ProtoItem.step s :: rest', f, a)
    | none =>
      let (rest', f, a) := setExecResultWalk acc rest
      (ProtoItem.step s :: rest', f, a)
  | ProtoItem.comment :: rest =>
    let (rest', f, a) := setExecResultWalk acc rest
    (ProtoItem.comment :: rest', f, a)

/-- `setExecutionResultForConcept` of the source: derive the concept's
execution result from its children.  On a failure the concept inherits the
failing child's (time-overwritten, shared) result object; otherwise a
fresh success result with the total time.  The result is set both as the
concept's `ConceptExecutionResult` and on its representative
`ConceptStep`, with the skip flag cleared. -/
def setExecutionResultForConcept (cs : ProtoStepData) (steps : List ProtoItem) :
    ProtoStepData × List ProtoItem × ProtoStepExecutionResult :=
  match setExecResultWalk 0 steps with
  | (steps', some r', _) =>
    let pser : ProtoStepExecutionResult := { executionResult := some r', skipped := some false }
    ({ cs with stepExecutionResult := some pser }, steps', pser)
  | (steps', none, total) =>
    let pser : ProtoStepExecutionResult :=
      { executionResult := some ({ failed := some false, executionTime := some total }),
        skipped := some false }
    ({ cs with stepExecutionResult := some pser }, steps', pser)

theorem msize_overwriteConceptChild (cs : ProtoStepData) (steps : List ProtoItem)
    (res : Option ProtoStepExecutionResult) (r' : ProtoExecutionResult) :
    (overwriteConceptChild cs steps res r').msize = (ProtoItem.concept cs steps res).msize := by
  simp [overwriteConceptChild, ProtoItem.msize]

theorem msize_map_setExecResultWalk (acc : Int) (l : List ProtoItem) :
    ((setExecResultWalk acc l).1).map ProtoItem.msize = l.map ProtoItem.msize := by
  induction l generalizing acc with
  | nil => simp [setExecResultWalk]
  | cons x rest ih =>
    cases x with
    | comment => simp [setExecResultWalk, ih]
    | step s =>
      simp only [setExecResultWalk]
      cases h : s.stepExecutionResult.bind (fun p => p.executionResult) with
      | none => simp [ih]
      | some rr =>
        by_cases hf : rr.getFailed
        · simp [hf, overwriteStepResult, ProtoItem.msize]
        · simp [hf, ih]
    | concept cs steps res =>
      simp only [setExecResultWalk]
      cases h : res.bind (fun p => p.executionResult) with
      | none => simp [ih, ProtoItem.msize]
      | some rr =>
        by_cases hf : rr.getFailed
        · simp [hf, overwriteConceptChild, overwriteStepResult, ProtoItem.msize]
        · simp [hf, ih, ProtoItem.msize]

theorem msizeList_eq_sum (l : List ProtoItem) :
    msizeList l = (l.map ProtoItem.msize).sum := by
  induction l with
  | nil => simp [msizeList]
  | cons x xs ih => simp [msizeList, ih]

theorem msizeList_setExecutionResultForConcept (cs : ProtoStepData) (l : List ProtoItem) :
    msizeList (setExecutionResultForConcept cs l).2.1 = msizeList l := by
  have h := msize_map_setExecResultWalk 0 l
  simp only [setExecutionResultForConcept]
  rcases hw : setExecResultWalk 0 l with ⟨steps', f, a⟩
  cases f <;>
    simp_all [msizeList_eq_sum, hw]

/-- `errorResult` of the source: a synthesized failed, non-recoverable
execution result carrying the error text. -/
def errorResult (message : String) : ProtoExecutionResult :=
  { failed := some true, errorMessage := some message, recoverableError := some false }

/-- `executeAndGetStatus` of the source: send the message on the runner
connection (appending it to the trace) and interpret the reply.  A
transport error yields a synthesized failed result carrying the error
text; a response that is not an execution-status response, or one whose
inner result is absent, yields `errorResult`. -/
def executeAndGetStatus (env : Env) (rs : RunState) (message : Msg) :
    RunState × ProtoExecutionResult :=
  let reply := env.chan rs.trace message
  let rs := { rs with trace := rs.trace ++ [message] }
  match reply with
  | Except.error err =>
    (rs, { failed := some true, errorMessage := some err })
  | Except.ok response =>
    if response.messageType = ResponseMsgType.executionStatusResponse then
      match response.executionResult with
      | none => (rs, errorResult "ProtoExecutionResult obtained is nil")
      | some executionResult => (rs, executionResult)
    else
      (rs, errorResult ("Expected ExecutionStatusResponse. Obtained: "
        ++ response.messageType.displayName))

/-- `setSpecFailure` of the source, on the Execution Info mirror. -/
def setSpecFailureInfo (i : ExecutionInfo) : ExecutionInfo :=
  { i with currentSpec := i.currentSpec.map (fun s => { s with isFailed := true }) }

/-- `setScenarioFailure` of the source: marks spec and scenario failed. -/
def setScenarioFailureInfo (i : ExecutionInfo) : ExecutionInfo :=
  let i := setSpecFailureInfo i
  { i with currentScenario := i.currentScenario.map (fun s => { s with isFailed := true }) }

/-- `setStepFailure` of the source: marks spec, scenario and step failed. -/
def setStepFailureInfo (i : ExecutionInfo) : ExecutionInfo :=
  let i := setScenarioFailureInfo i
  { i with currentStep := i.currentStep.map (fun s => { s with isFailed := true }) }

def RunState.specFailed (rs : RunState) : RunState :=
  { rs with info := setSpecFailureInfo rs.info }

def RunState.scenarioFailed (rs : RunState) : RunState :=
  { rs with info := setScenarioFailureInfo rs.info }

def RunState.stepFailed (rs : RunState) : RunState :=
  { rs with info := setStepFailureInfo rs.info }

/-- `getParameters` of the source: the parameter fragments' parameters, in
order. -/
def getParameters (fragments : List Fragment) : List Parameter :=
  fragments.filterMap (fun f =>
    match f with
    | Fragment.parameter p => some p
    | Fragment.text _ => none)

/-- `createStepRequest` of the source. -/
def createStepRequest (protoStep : ProtoStepData) : ExecuteStepRequest :=
  { parsedStepText := protoStep.parsedText, actualStepText := protoStep.actualText,
    parameters := getParameters protoStep.fragments }

/-- The run state inside `executeStep` once the current-step Execution Info
has been set (source line 451), from which the before-step hook is sent. -/
def stepStartState (rs : RunState) (protoStep : ProtoStepData) : RunState :=
  let stepInfo : StepInfo := { step := createStepRequest protoStep, isFailed := false }
  { rs with info := { rs.info with currentStep := some stepInfo } }

/-- `executeBeforeStepHook` of the source (the plugin broadcast carries no
reply and is not modelled; the worker round-trip is). -/
def executeBeforeStepHook (env : Env) (rs : RunState) : RunState × ProtoExecutionResult :=
  executeAndGetStatus env rs (Msg.stepExecutionStarting rs.info)

/-- `executeAfterStepHook` of the source. -/
def executeAfterStepHook (env : Env) (rs : RunState) : RunState × ProtoExecutionResult :=
  executeAndGetStatus env rs (Msg.stepExecutionEnding rs.info)

/-- `addExecutionTimes` of the source: fold the hook results' times into
the step result's execution time (initialize from absent). -/
def addExecutionTimes (r : ProtoExecutionResult) (hooks : List ProtoExecutionResult) :
    ProtoExecutionResult :=
  hooks.foldl
    (fun acc h =>
      match acc.executionTime with
      | none => { acc with executionTime := some h.getExecutionTime }
      | some t => { acc with executionTime := some (t + h.getExecutionTime) })
    r

/-- `executeStep` of the source (named `executeStepFn` to keep the
message constructor's name free): run the before-step hook; on its failure
synthesize a failed result with the hook-failure detail and do not send
the execute-step message, otherwise send it; run the after-step hook
unconditionally, fold in hook times, propagate an after-hook failure into
the result, carry over the resolution-time skip flag and reason, and store
the new step execution result on the step. -/
def executeStepFn (env : Env) (rs : RunState) (protoStep : ProtoStepData) :
    RunState × ProtoStepData × Bool :=
  let stepRequest := createStepRequest protoStep
  let rs := stepStartState rs protoStep
  let (rs, beforeHookStatus) := executeBeforeStepHook env rs
  let branch :=
    if beforeHookStatus.getFailed then
      (rs.stepFailed,
        ({ failed := some true } : ProtoExecutionResult),
        some (getProtoHookFailure beforeHookStatus))
    else
      let (rs, stepExecutionStatus) :=
        executeAndGetStatus env rs (Msg.executeStep stepRequest)
      let rs := if stepExecutionStatus.getFailed then rs.stepFailed else rs
      (rs, stepExecutionStatus, (none : Option ProtoHookFailure))
  let rs := branch.1
  let executionR := branch.2.1
  let preHookF := branch.2.2
  let (rs, afterStepHookStatus) := executeAfterStepHook env rs
  let executionR := addExecutionTimes executionR [beforeHookStatus, afterStepHookStatus]
  let after :=
    if afterStepHookStatus.getFailed then
      (rs.stepFailed, { executionR with failed := some true },
        some (getProtoHookFailure afterStepHookStatus))
    else (rs, executionR, (none : Option ProtoHookFailure))
  let rs := after.1
  let executionR := { after.2.1 with message := afterStepHookStatus.message }
  let postHookF := after.2.2
  let protoStepExecResult : ProtoStepExecutionResult :=
    { executionResult := some executionR,
      preHookFailure := preHookF,
      postHookFailure := postHookF,
      skipped := protoStep.stepExecutionResult.bind (fun p => p.skipped),
      skippedReason := protoStep.stepExecutionResult.bind (fun p => p.skippedReason) }
  let protoStep := { protoStep with stepExecutionResult := some protoStepExecResult }
  let stepFailed := itemFailed (ProtoItem.step protoStep)
  (rs, protoStep, stepFailed)

theorem msize_map_setExecutionResultForConcept (cs : ProtoStepData) (l : List ProtoItem) :
    (setExecutionResultForConcept cs l).2.1.map ProtoItem.msize = l.map ProtoItem.msize := by
  have h := msize_map_setExecResultWalk 0 l
  simp only [setExecutionResultForConcept]
  rcases hw : setExecResultWalk 0 l with ⟨steps', f, a⟩
  cases f <;> simp_all [hw]

theorem drop_length_append_cons {α : Type} (l1 : List α) (x : α) (l2 : List α) :
    (l1 ++ x :: l2).drop (l1.length + 1) = l2 := by
  induction l1 with
  | nil => simp
  | cons y ys ih => simp [ih]

theorem msizeList_drop_agg (cs : ProtoStepData) (done : List ProtoItem) (x' : ProtoItem)
    (rest : List ProtoItem) :
    msizeList ((setExecutionResultForConcept cs (done ++ x' :: rest)).2.1.drop
      (done.length + 1)) = msizeList rest := by
  have h := msize_map_setExecutionResultForConcept cs (done ++ x' :: rest)
  rw [msizeList_eq_sum, List.map_drop, h]
  have h2 : (done ++ x' :: rest).map ProtoItem.msize
      = done.map ProtoItem.msize ++ ProtoItem.msize x' :: rest.map ProtoItem.msize := by
    simp
  rw [h2]
  have h3 := drop_length_append_cons (done.map ProtoItem.msize) (ProtoItem.msize x')
    (rest.map ProtoItem.msize)
  simp only [List.length_map] at h3
  rw [h3, msizeList_eq_sum]

/-- The getter chain of source line 405:
`GetConceptExecutionResult().GetExecutionResult().GetFailed()`. -/
def conceptResFailed (res : Option ProtoStepExecutionResult) : Bool :=
  (((res.bind (fun p => p.executionResult)).map (fun r => r.getFailed))).getD false

mutual

/-- `executeItem` of the source: dispatch a resolved item to the concept
or step executor; other items do not execute and report no failure. -/
def executeItem (env : Env) (rs : RunState) (item : ProtoItem) :
    RunState × ProtoItem × Bool :=
  match item with
  | ProtoItem.concept cs steps res =>
    let r := executeConceptLoop env rs cs res [] steps
    (r.1, ProtoItem.concept r.2.1 r.2.2.1 r.2.2.2.1, r.2.2.2.2)
  | ProtoItem.step s =>
    let r := executeStepFn env rs s
    (r.1, ProtoItem.step r.2.1, r.2.2)
  | ProtoItem.comment => (rs, ProtoItem.comment, false)
termination_by item.msize
decreasing_by
  simp only [ProtoItem.msize]
  omega

/-- The loop of `executeConcept` (source lines 396-408): execute the
children in order; after every child re-derive the concept's execution
result from the whole child list; stop as soon as an executed child
reports failure.  `done` is the already-walked prefix, `todo` the
remaining children; when the loop ends without a child failure the
concept's failed flag is read from its (last derived) execution result. -/
def executeConceptLoop (env : Env) (rs : RunState) (cs : ProtoStepData)
    (res : Option ProtoStepExecutionResult) (done todo : List ProtoItem) :
    RunState × ProtoStepData × List ProtoItem × Option ProtoStepExecutionResult × Bool :=
  match todo with
  | [] => (rs, cs, done, res, conceptResFailed res)
  | x :: rest =>
    let e := executeItem env rs x
    let agg := setExecutionResultForConcept cs (done ++ e.2.1 :: rest)
    if e.2.2 then
      (e.1, agg.1, agg.2.1, some agg.2.2, true)
    else
      executeConceptLoop env e.1 agg.1 (some agg.2.2)
        (agg.2.1.take (done.length + 1)) (agg.2.1.drop (done.length + 1))
termination_by msizeList todo + 1
decreasing_by
  · simp only [msizeList]
    have := msize_pos x
    omega
  · rw [msizeList_drop_agg]
    simp only [msizeList]
    have := msize_pos x
    omega

end

/-- `executeItems` of the source: walk an item list in order and stop at
the first item that reports failure; the remaining items are not executed. -/
def executeItems (env : Env) (rs : RunState) :
    List ProtoItem → RunState × List ProtoItem × Bool
  | [] => (rs, [], false)
  | x :: rest =>
    let e := executeItem env rs x
    if e.2.2 then (e.1, e.2.1 :: rest, true)
    else
      let r := executeItems env e.1 rest
      (r.1, e.2.1 :: r.2.1, r.2.2)

/-- `executeContextItems` of the source: execute the resolved context
items; a failure is OR-ed into the scenario's failure flag. -/
def executeContextItems (env : Env) (rs : RunState) (sr : ScenarioResult) :
    RunState × ScenarioResult :=
  let e := executeItems env rs sr.protoScenario.contexts
  let sr := { protoScenario := { sr.protoScenario with contexts := e.2.1 } }
  (e.1, if e.2.2 then sr.setFailure else sr)

/-- `executeScenarioItems` of the source. -/
def executeScenarioItems (env : Env) (rs : RunState) (sr : ScenarioResult) :
    RunState × ScenarioResult :=
  let e := executeItems env rs sr.protoScenario.scenarioItems
  let sr := { protoScenario := { sr.protoScenario with scenarioItems := e.2.1 } }
  (e.1, if e.2.2 then sr.setFailure else sr)

/-- `executeTearDownItems` of the source. -/
def executeTearDownItems (env : Env) (rs : RunState) (sr : ScenarioResult) :
    RunState × ScenarioResult :=
  let e := executeItems env rs sr.protoScenario.tearDownSteps
  let sr := { protoScenario := { sr.protoScenario with tearDownSteps := e.2.1 } }
  (e.1, if e.2.2 then sr.setFailure else sr)

/-- Modelled from the spec: `result.ScenarioResult.UpdateExecutionTime` of
the repository (not under src/) folds the resolved items' recorded times
into the scenario's total (spec section 3: execution time is always the
sum of constituent times). -/
def ScenarioResult.updateExecutionTime (sr : ScenarioResult) : ScenarioResult :=
  sr.addExecTime
    (sumItemTimes sr.protoScenario.contexts + sumItemTimes sr.protoScenario.scenarioItems
      + sumItemTimes sr.protoScenario.tearDownSteps)

/-- `executeBeforeScenarioHook` of the source: send the hook message and
add its execution time to the scenario result (via `executeHook`). -/
def executeBeforeScenarioHook (env : Env) (rs : RunState) (sr : ScenarioResult) :
    RunState × ScenarioResult × ProtoExecutionResult :=
  let e := executeAndGetStatus env rs (Msg.scenarioExecutionStarting rs.info)
  (e.1, sr.addExecTime e.2.getExecutionTime, e.2)

/-- `executeAfterScenarioHook` of the source. -/
def executeAfterScenarioHook (env : Env) (rs : RunState) (sr : ScenarioResult) :
    RunState × ScenarioResult × ProtoExecutionResult :=
  let e := executeAndGetStatus env rs (Msg.scenarioExecutionEnding rs.info)
  (e.1, sr.addExecTime e.2.getExecutionTime, e.2)

/-- The skip-error format string of source line 245:
`"<file>:<line>: <message>. <line text>"`. -/
def formatSkipError (e : StepValidationError) : String :=
  e.fileName ++ ":" ++ toString e.stepLineNo ++ ": " ++ e.errMessage ++ ". " ++ e.stepLineText

/-- `setSkipInfoInResult` of the source: bump the spec result's skipped
count, mark the scenario result skipped and attach the formatted error
strings of the scenario's validation errors. -/
def setSkipInfoInResult (env : Env) (specRes : SpecResult) (sr : ScenarioResult)
    (scenario : Scenario) : SpecResult × ScenarioResult :=
  let specRes := { specRes with scenarioSkippedCount := specRes.scenarioSkippedCount + 1 }
  let errs := (env.errMap.lookupScenario scenario).getD []
  let ps : ProtoScenario :=
    { sr.protoScenario with
        skipped := some true,
        skipErrors := errs.map formatSkipError }
  (specRes, { protoScenario := ps })

/-- The run state just after `executeScenario` has updated the Execution
Info with the scenario about to run (source line 205). -/
def scenarioStartState (rs : RunState) (scenario : Scenario) : RunState :=
  let scenInfo : ScenarioInfo :=
    { name := scenario.heading, tags := (scenario.tags).getD [], isFailed := false }
  { rs with info := { rs.info with currentScenario := some scenInfo } }

/-- The materialized scenario shell (source lines 206-208): the fresh
scenario result with resolved contexts, tear-down items and scenario items
and a cleared skip flag. -/
def scenarioShell (env : Env) (row : Nat) (scenario : Scenario) : ScenarioResult :=
  let sr : ScenarioResult := { protoScenario := newProtoScenario scenario }
  let sr := addAllItemsForScenarioExecution env row scenario sr
  { protoScenario := { sr.protoScenario with skipped := some false } }

/-- `executeScenario` of the source: update the Execution Info, materialize
the scenario shell, short-circuit a skip-map hit before any message, then
run the before-hook, the context/body/tear-down phases and the after-hook. -/
def executeScenario (env : Env) (rs : RunState) (specRes : SpecResult) (row : Nat)
    (scenario : Scenario) : RunState × SpecResult × ScenarioResult :=
  let rs := scenarioStartState rs scenario
  let sr := scenarioShell env row scenario
  match env.errMap.lookupScenario scenario with
  | some _ =>
    let p := setSkipInfoInResult env specRes sr scenario
    (rs, p.1, p.2)
  | none =>
    let b := executeBeforeScenarioHook env rs sr
    let rs := b.1
    let sr := b.2.1
    let beforeHookExecutionStatus := b.2.2
    let mid :=
      if beforeHookExecutionStatus.getFailed then
        (rs.scenarioFailed, sr.addPreHook beforeHookExecutionStatus)
      else
        let c := executeContextItems env rs sr
        let d := if ¬ c.2.getFailure then executeScenarioItems env c.1 c.2 else c
        executeTearDownItems env d.1 d.2
    let a := executeAfterScenarioHook env mid.1 mid.2
    let rs := a.1
    let sr := a.2.1
    let afterHookExecutionStatus := a.2.2
    let sr := sr.addPostHook afterHookExecutionStatus
    let sr := sr.updateExecutionTime
    let rs := if afterHookExecutionStatus.getFailed then rs.scenarioFailed else rs
    (rs, specRes, sr)

/-- `executeScenarios` of the source: execute every scenario of the
specification in order, collecting the scenario results. -/
def executeScenariosLoop (env : Env) (rs : RunState) (specRes : SpecResult) (row : Nat) :
    List Scenario → RunState × SpecResult × List ScenarioResult
  | [] => (rs, specRes, [])
  | s :: rest =>
    let e := executeScenario env rs specRes row s
    let r := executeScenariosLoop env e.1 e.2.1 row rest
    (r.1, r.2.1, e.2.2 :: r.2.2)

/-- `executeScenarios` of the source. -/
def executeScenarios (env : Env) (rs : RunState) (specRes : SpecResult) (row : Nat) :
    RunState × SpecResult × List ScenarioResult :=
  executeScenariosLoop env rs specRes row env.specification.scenarios

/-- `getSkippedScenarioResult` of the source: materialize the scenario
shell and mark it skipped (no message is ever sent). -/
def getSkippedScenarioResult (env : Env) (specRes : SpecResult) (scenario : Scenario) :
    SpecResult × ScenarioResult :=
  let sr : ScenarioResult := { protoScenario := newProtoScenario scenario }
  let sr := addAllItemsForScenarioExecution env 0 scenario sr
  setSkipInfoInResult env specRes sr scenario

/-- The scenario fold of `getSkippedSpecResult`. -/
def getSkippedScenarioResultsLoop (env : Env) (specRes : SpecResult) :
    List Scenario → SpecResult × List ScenarioResult
  | [] => (specRes, [])
  | s :: rest =>
    let e := getSkippedScenarioResult env specRes s
    let r := getSkippedScenarioResultsLoop env e.1 rest
    (r.1, e.2 :: r.2)

/-- `getSkippedSpecResult` of the source: synthesize a fully skipped result
for every scenario, attach them, and hard-set the spec-level skipped flag. -/
def getSkippedSpecResult (env : Env) (specRes : SpecResult) : SpecResult :=
  let r := getSkippedScenarioResultsLoop env specRes env.specification.scenarios
  let specRes := r.1.addScenarioResults r.2
  { specRes with skipped := true }

/-- `executeBeforeSpecHook` of the source: send the hook message and add
its execution time to the spec result (via `executeHook`). -/
def executeBeforeSpecHook (env : Env) (rs : RunState) (specRes : SpecResult) :
    RunState × SpecResult × ProtoExecutionResult :=
  let e := executeAndGetStatus env rs (Msg.specExecutionStarting rs.info)
  (e.1, specRes.addExecTime e.2.getExecutionTime, e.2)

/-- `executeAfterSpecHook` of the source. -/
def executeAfterSpecHook (env : Env) (rs : RunState) (specRes : SpecResult) :
    RunState × SpecResult × ProtoExecutionResult :=
  let e := executeAndGetStatus env rs (Msg.specExecutionEnding rs.info)
  (e.1, specRes.addExecTime e.2.getExecutionTime, e.2)

/-- `getTagValue` of the source. -/
def getTagValue (tags : Option (List String)) : List String :=
  tags.getD []

/-- The Execution Info built at the top of `execute` (source lines
117-120). -/
def initialExecutionInfo (env : Env) : ExecutionInfo :=
  { currentSpec := some
      { name := env.specification.heading, fileName := env.specification.fileName,
        isFailed := false, tags := getTagValue env.specification.tags } }

/-- The spec result after resolution of the spec's own items (source lines
121-123; the executor's table row is still 0 at this point). -/
def initialSpecResult (env : Env) : SpecResult :=
  (newSpecResult env.specification).addSpecItems
    (resolveItems env 0 env.specification.specItems)

/-- The run state at the start of `execute`, before any message is sent. -/
def initialRunState (env : Env) : RunState :=
  { trace := [], info := initialExecutionInfo env }

/-- The row loop of `executeTableDrivenSpec` (inclusive range, ascending). -/
def executeRowsLoop (env : Env) (rs : RunState) (specRes : SpecResult) (row : Nat)
    (acc : List (List ScenarioResult)) :
    RunState × SpecResult × List (List ScenarioResult) :=
  if row ≤ env.dataTableIndex.endIdx then
    let e := executeScenarios env rs specRes row
    executeRowsLoop env e.1 e.2.1 (row + 1) (acc ++ [e.2.2])
  else (rs, specRes, acc)
termination_by env.dataTableIndex.endIdx + 1 - row

/-- `executeTableDrivenSpec` of the source: execute every row of the
configured inclusive range in ascending order and attach the per-row
scenario result lists. -/
def executeTableDrivenSpec (env : Env) (rs : RunState) (specRes : SpecResult) :
    RunState × SpecResult :=
  let e := executeRowsLoop env rs specRes env.dataTableIndex.start []
  (e.1, e.2.1.addTableDrivenScenarioResult e.2.2)

/-- `execute` of the source: build Execution Info and the resolved spec
result; short-circuit a spec-level skip-map hit before any message; run
the before-spec hook and, unless it failed, the scenarios (plain or
table-driven); run the after-spec hook unconditionally; finally derive the
spec-level skipped flag from the skipped-scenario count. -/
def execute (env : Env) : RunState × SpecResult :=
  let rs : RunState := initialRunState env
  let specRes := initialSpecResult env
  if env.errMap.specSkipped then
    (rs, getSkippedSpecResult env specRes)
  else
    let b := executeBeforeSpecHook env rs specRes
    let rs := b.1
    let specRes := b.2.1
    let beforeSpecHookStatus := b.2.2
    let mid :=
      if beforeSpecHookStatus.getFailed then
        (rs.specFailed, specRes.addPreHook beforeSpecHookStatus)
      else
        if env.specification.dataTable.rowCount = 0 then
          let e := executeScenarios env rs specRes 0
          (e.1, e.2.1.addScenarioResults e.2.2)
        else
          executeTableDrivenSpec env rs specRes
    let a := executeAfterSpecHook env mid.1 mid.2
    let rs := a.1
    let specRes := a.2.1
    let afterSpecHookStatus := a.2.2
    let p :=
      if afterSpecHookStatus.getFailed then
        (rs.specFailed, specRes.addPostHook afterSpecHookStatus)
      else (rs, specRes)
    let specRes := p.2
    (p.1, { specRes with skipped := decide (0 < specRes.scenarioSkippedCount) })

/-! Helper definitions used in the statements of the properties below. -/

/-- The skip flag a step's resolution attaches
(`protoStep.StepExecutionResult.Skipped` after `resolveToProtoStepItem`). -/
def resolvedStepSkipFlag (env : Env) (row : Nat) (step : GaugeStep) : Option Bool :=
  match resolveToProtoStepItem env row step with
  | ProtoItem.step s => s.stepExecutionResult.bind (fun p => p.skipped)
  | _ => none

/-- The failed flag of a derived step/concept execution result. -/
def pserFailed (p : ProtoStepExecutionResult) : Bool :=
  ((p.executionResult.map (fun r => r.getFailed))).getD false

/-- The recorded execution time of a derived step/concept execution result. -/
def pserTime (p : ProtoStepExecutionResult) : Int :=
  ((p.executionResult.bind (fun r => r.executionTime))).getD 0

/-- Number of scenarios of the specification present in the scenario-level
skip map. -/
def scenariosInSkipMapCount (env : Env) : Nat :=
  (env.specification.scenarios.filter
    (fun s => (env.errMap.lookupScenario s).isSome)).length

/-- Number of execution passes over the scenario list: one for a spec
without data-table rows, otherwise the number of rows of the configured
inclusive range. -/
def rowsExecutedCount (env : Env) : Nat :=
  if env.specification.dataTable.rowCount = 0 then 1
  else env.dataTableIndex.endIdx + 1 - env.dataTableIndex.start

/-- Number of scenario executions (across all executed rows) whose scenario
is in the skip map, for a completed `execute` call: zero when the
before-spec hook fails (no scenario is executed in that pass), otherwise
one count per pass and per skip-mapped scenario. -/
def skippedScenarioExecutionsCount (env : Env) : Nat :=
  if (executeBeforeSpecHook env (initialRunState env) (initialSpecResult env)).2.2.getFailed
  then 0
  else rowsExecutedCount env * scenariosInSkipMapCount env

/-! Concrete demonstration inputs. -/

/-- A worker reply that always succeeds with a 1ms execution time. -/
def demoOkResponse : Response :=
  { messageType := ResponseMsgType.executionStatusResponse,
    executionResult := some { failed := some false, executionTime := some 1 } }

/-- A channel whose worker always succeeds. -/
def demoOkChan : List Msg → Msg → Except String Response :=
  fun _ _ => Except.ok demoOkResponse

/-- A plain step with identity 7 whose implementation is missing (it will
be placed in the step-level skip map). -/
def demoSkippedStep : GaugeStep :=
  GaugeStep.mk 7 "do it" "do it" "do it" 3 [FragmentTemplate.text "do it"] false []

/-- A scenario holding only the skipped step. -/
def demoScenario : Scenario :=
  { id := 0, heading := "sc", items := [Item.step demoSkippedStep] }

/-- An executor whose step-level skip map contains the scenario's only
step, while neither the spec nor the scenario is skip-mapped. -/
def envStepSkipDemo : Env :=
  { specification := { heading := "S", fileName := "s.spec", scenarios := [demoScenario] },
    errMap := { stepErrs := [7] },
    chan := demoOkChan }

/-- The execute-step request built for the demonstration step. -/
def demoStepRequest : ExecuteStepRequest :=
  { parsedStepText := "do it", actualStepText := "do it", parameters := [] }

/-- A validation error entry used by the scenario-skip demonstrations. -/
def demoValidationError : StepValidationError :=
  { fileName := "s.spec", stepLineNo := 12, stepLineText := "do it",
    errMessage := "Step implementation not found" }

/-- An executor whose scenario is in the scenario-level skip map. -/
def envScenarioSkipDemo : Env :=
  { specification := { heading := "S", fileName := "s.spec", scenarios := [demoScenario] },
    errMap := { scenarioErrs := [(0, [demoValidationError])] },
    chan := demoOkChan }

/-- An executor whose specification is in the spec-level skip map and has
two scenarios. -/
def envSpecSkipDemo : Env :=
  { specification :=
      { heading := "S", fileName := "s.spec",
        scenarios := [demoScenario, { id := 1, heading := "sc2" }] },
    errMap := { specSkipped := true },
    chan := demoOkChan }

/-- An executor whose specification is in the spec-level skip map and has
no scenarios at all. -/
def envSpecSkipNoScenarios : Env :=
  { specification := { heading := "S", fileName := "s.spec" },
    errMap := { specSkipped := true },
    chan := demoOkChan }

/-- A channel that fails every message with a transport error. -/
def demoFailingChan : List Msg → Msg → Except String Response :=
  fun _ _ => Except.error "connection reset"

/-- An executor over a failing channel (every hook round-trip errors). -/
def envTransportErrorDemo : Env :=
  { specification := { heading := "S", fileName := "s.spec", scenarios := [demoScenario] },
    chan := demoFailingChan }

/-- A resolved proto step used to exercise the step executor directly. -/
def demoProtoStep : ProtoStepData :=
  { actualText := "do it", parsedText := "do it", fragments := [Fragment.text "do it"],
    stepExecutionResult := some { skipped := some false } }

/-- A proto step carrying an executed result with the given outcome. -/
def demoExecutedStep (t : String) (failed : Bool) (time : Int) : ProtoStepData :=
  { actualText := t, parsedText := t, fragments := [Fragment.text t],
    stepExecutionResult := some
      { executionResult := some { failed := some failed, executionTime := some time },
        skipped := some false } }

/-- A successfully executed 10ms child step. -/
def demoChildS1 : ProtoItem := ProtoItem.step (demoExecutedStep "s1" false 10)

/-- A failed 5ms child step. -/
def demoChildS2 : ProtoItem := ProtoItem.step (demoExecutedStep "s2" true 5)

/-- A successfully executed 1ms child step. -/
def demoChildS3 : ProtoItem := ProtoItem.step (demoExecutedStep "s3" false 1)

/-- The representative step handle of the demonstration concept. -/
def demoConceptStep : ProtoStepData :=
  { actualText := "c", parsedText := "c", fragments := [Fragment.text "c"],
    stepExecutionResult := some { skipped := some false } }

/-! State-shape lemmas about the channel round-trip and the hook wrappers:
sending a message appends exactly that message to the trace and leaves the
Execution Info untouched, whatever the worker replies. -/

theorem executeAndGetStatus_fst (env : Env) (rs : RunState) (m : Msg) :
    (executeAndGetStatus env rs m).1 = { rs with trace := rs.trace ++ [m] } := by
  simp only [executeAndGetStatus]
  rcases env.chan rs.trace m with e | resp
  · rfl
  · dsimp only
    split
    · rcases resp.executionResult with _ | r <;> rfl
    · rfl

theorem executeBeforeStepHook_fst (env : Env) (rs : RunState) :
    (executeBeforeStepHook env rs).1
      = { rs with trace := rs.trace ++ [Msg.stepExecutionStarting rs.info] } := by
  simp only [executeBeforeStepHook, executeAndGetStatus_fst]

theorem executeAfterStepHook_fst (env : Env) (rs : RunState) :
    (executeAfterStepHook env rs).1
      = { rs with trace := rs.trace ++ [Msg.stepExecutionEnding rs.info] } := by
  simp only [executeAfterStepHook, executeAndGetStatus_fst]

theorem stepFailed_trace (rs : RunState) : (rs.stepFailed).trace = rs.trace := rfl

theorem stepFailed_info (rs : RunState) : (rs.stepFailed).info = setStepFailureInfo rs.info := rfl

theorem scenarioFailed_trace (rs : RunState) : (rs.scenarioFailed).trace = rs.trace := rfl

theorem specFailed_trace (rs : RunState) : (rs.specFailed).trace = rs.trace := rfl

/-! Properties. -/

/-- C8: every channel round-trip that ends in a transport error, a
response of the wrong type, or an execution-status response without an
inner result is synthesized into a failed execution result with an error
message and a false recoverable flag (the flag being an explicit `false`
for the two protocol errors and the proto default `false` for the
transport error); and a failed before-step hook makes the step's execution
result failed while the `ExecuteStep` message is never sent for that step
(the step's trace gains exactly the two step-hook messages). -/
theorem C8_protocol_errors_and_before_step_hook :
    (∀ (env : Env) (rs : RunState) (m : Msg) (e : String),
      env.chan rs.trace m = Except.error e →
        (executeAndGetStatus env rs m).2.getFailed = true
        ∧ (executeAndGetStatus env rs m).2.getErrorMessage = e
        ∧ (executeAndGetStatus env rs m).2.getRecoverableError = false)
    ∧ (∀ (env : Env) (rs : RunState) (m : Msg) (resp : Response),
      env.chan rs.trace m = Except.ok resp →
      resp.messageType ≠ ResponseMsgType.executionStatusResponse →
        (executeAndGetStatus env rs m).2
          = errorResult ("Expected ExecutionStatusResponse. Obtained: "
              ++ resp.messageType.displayName))
    ∧ (∀ (env : Env) (rs : RunState) (m : Msg) (resp : Response),
      env.chan rs.trace m = Except.ok resp →
      resp.messageType = ResponseMsgType.executionStatusResponse →
      resp.executionResult = none →
        (executeAndGetStatus env rs m).2 = errorResult "ProtoExecutionResult obtained is nil")
    ∧ (∀ s : String,
        (errorResult s).getFailed = true ∧ (errorResult s).getErrorMessage = s
        ∧ (errorResult s).getRecoverableError = false)
    ∧ (∀ (env : Env) (rs : RunState) (ps : ProtoStepData),
      (executeBeforeStepHook env (stepStartState rs ps)).2.getFailed = true →
        (executeStepFn env rs ps).2.2 = true
        ∧ (executeStepFn env rs ps).1.trace
            = rs.trace ++ [Msg.stepExecutionStarting (stepStartState rs ps).info,
                Msg.stepExecutionEnding (setStepFailureInfo (stepStartState rs ps).info)]) := by
  refine ⟨?_, ?_, ?_, ?_, ?_⟩
  · intro env rs m e h
    simp [executeAndGetStatus, h, ProtoExecutionResult.getFailed,
      ProtoExecutionResult.getErrorMessage, ProtoExecutionResult.getRecoverableError]
  · intro env rs m resp h hty
    simp [executeAndGetStatus, h, hty]
  · intro env rs m resp h hty hres
    simp [executeAndGetStatus, h, hty, hres]
  · intro s
    simp [errorResult, ProtoExecutionResult.getFailed,
      ProtoExecutionResult.getErrorMessage, ProtoExecutionResult.getRecoverableError]
  · intro env rs ps h
    simp only [executeStepFn, h, if_true]
    constructor
    · split
      · simp [itemFailed, itemExecResult, ProtoExecutionResult.getFailed]
      · simp [itemFailed, itemExecResult, ProtoExecutionResult.getFailed,
          addExecutionTimes]
    · split <;>
        simp [stepFailed_trace, executeAfterStepHook_fst, executeBeforeStepHook_fst,
          stepFailed_info, stepStartState]

/-- Witness for C8: over a channel that fails with a transport error, a
concrete round-trip yields a failed result and a concrete step execution
reports failure (with no execute-step message ever sent). -/
theorem C8_witness :
    (executeAndGetStatus envTransportErrorDemo (initialRunState envTransportErrorDemo)
        (Msg.executeStep demoStepRequest)).2.getFailed = true
    ∧ (executeStepFn envTransportErrorDemo (initialRunState envTransportErrorDemo)
        demoProtoStep).2.2 = true := by
  constructor
  · exact (C8_protocol_errors_and_before_step_hook.1 envTransportErrorDemo
      (initialRunState envTransportErrorDemo) (Msg.executeStep demoStepRequest)
      "connection reset" rfl).1
  · exact (C8_protocol_errors_and_before_step_hook.2.2.2.2 envTransportErrorDemo
      (initialRunState envTransportErrorDemo) demoProtoStep (by decide)).1

/-- C7: for every scenario present in the scenario-level skip map,
`executeScenario` leaves the trace untouched (no hook or step runs),
increments the spec result's skipped count by exactly one, marks the
scenario result skipped and attaches one formatted
`"<file>:<line>: <message>. <line text>"` string per validation error. -/
theorem C7_scenario_skip_map (env : Env) (rs : RunState) (specRes : SpecResult)
    (row : Nat) (scenario : Scenario) (errs : List StepValidationError)
    (h : env.errMap.lookupScenario scenario = some errs) :
    (executeScenario env rs specRes row scenario).1.trace = rs.trace
    ∧ (executeScenario env rs specRes row scenario).2.1.scenarioSkippedCount
        = specRes.scenarioSkippedCount + 1
    ∧ (executeScenario env rs specRes row scenario).2.2.protoScenario.skipped = some true
    ∧ (executeScenario env rs specRes row scenario).2.2.protoScenario.skipErrors
        = errs.map formatSkipError := by
  simp [executeScenario, h, setSkipInfoInResult, scenarioStartState]

/-- Witness for C7: a concrete skip-mapped scenario yields the skipped
result with the concretely formatted error string. -/
theorem C7_witness :
    envScenarioSkipDemo.errMap.lookupScenario demoScenario = some [demoValidationError]
    ∧ (executeScenario envScenarioSkipDemo (initialRunState envScenarioSkipDemo)
        (initialSpecResult envScenarioSkipDemo) 0 demoScenario).2.2.protoScenario.skipErrors
        = ["s.spec:12: Step implementation not found. do it"] := by
  constructor
  · rfl
  · have h := (C7_scenario_skip_map envScenarioSkipDemo (initialRunState envScenarioSkipDemo)
      (initialSpecResult envScenarioSkipDemo) 0 demoScenario [demoValidationError] rfl).2.2.2
    rw [h]
    rfl

/-- Counterexample for C1: with the scenario not in the skip map and its
only step in the step-level skip map, the step's resolution-time skip flag
is set, yet running `execute` sends an `ExecuteStep` message whose request
is exactly the skipped step's (same actual text): a skipped step is still
the subject of worker messages, contradicting the claim. -/
theorem C1_counterexample :
    envStepSkipDemo.errMap.stepInMap demoSkippedStep = true
    ∧ resolvedStepSkipFlag envStepSkipDemo 0 demoSkippedStep = some true
    ∧ Msg.executeStep demoStepRequest ∈ (execute envStepSkipDemo).1.trace
    ∧ demoStepRequest.actualStepText = demoSkippedStep.actualText := by
  refine ⟨by decide, by decide, ?_, by decide⟩
  simp [execute, envStepSkipDemo, initialRunState, initialSpecResult, newSpecResult,
    SpecResult.addSpecItems, resolveItems, executeBeforeSpecHook, executeAfterSpecHook,
    executeAndGetStatus, demoOkChan, demoOkResponse, executeScenarios, executeScenariosLoop,
    executeScenario, scenarioStartState, scenarioShell, addAllItemsForScenarioExecution,
    getContextItemsForScenarioExecution, resolveToProtoItem, resolveToProtoStepItem,
    setSkipInfo, convertStepToProtoStep, updateProtoStepParameters, updateFragments,
    getResolvedParams, dataTableLookup, demoScenario, demoSkippedStep, newProtoScenario,
    executeBeforeScenarioHook, executeAfterScenarioHook, executeContextItems,
    executeScenarioItems, executeTearDownItems, executeItems, executeItem, executeStepFn,
    executeBeforeStepHook, executeAfterStepHook, createStepRequest, getParameters,
    addExecutionTimes, stepStartState, ScenarioResult.addExecTime, ScenarioResult.getFailure,
    ScenarioResult.setFailure, ScenarioResult.updateExecutionTime, ScenarioResult.addPostHook,
    ScenarioResult.addPreHook, itemFailed, itemExecResult, ProtoExecutionResult.getFailed,
    ProtoExecutionResult.getExecutionTime, Table.rowCount, SpecResult.addScenarioResults,
    SpecResult.addExecTime, demoStepRequest, ValidationErrMaps.lookupScenario,
    ValidationErrMaps.stepInMap, GaugeStep.isConcept, GaugeStep.id, GaugeStep.actualText,
    GaugeStep.parsedText, GaugeStep.fragments, Item.isTearDownKind, getTagValue,
    initialExecutionInfo, sumItemTimes, itemExecTime]

/-- C1 (amended): a scenario found in the skip map is never the subject of
any worker message — `executeScenario` returns with the trace unchanged —
while a step whose resolved skip flag is set is not protected: step
execution ignores the flag and only carries the resolution-time skip flag
and reason into the step's recorded result. -/
theorem C1_amended_skip_semantics :
    (∀ (env : Env) (rs : RunState) (specRes : SpecResult) (row : Nat)
        (scenario : Scenario) (errs : List StepValidationError),
      env.errMap.lookupScenario scenario = some errs →
        (executeScenario env rs specRes row scenario).1.trace = rs.trace)
    ∧ (∀ (env : Env) (rs : RunState) (ps : ProtoStepData),
        (executeStepFn env rs ps).2.1.stepExecutionResult.bind (fun p => p.skipped)
          = ps.stepExecutionResult.bind (fun p => p.skipped)
        ∧ (executeStepFn env rs ps).2.1.stepExecutionResult.bind (fun p => p.skippedReason)
          = ps.stepExecutionResult.bind (fun p => p.skippedReason)) := by
  constructor
  · intro env rs specRes row scenario errs h
    simp [executeScenario, h, setSkipInfoInResult, scenarioStartState]
  · intro env rs ps
    simp only [executeStepFn]
    constructor <;> (split <;> simp)

/-- Witness for C1 (amended): the skipped demonstration scenario adds no
message, and a concrete step execution carries the skip flag through. -/
theorem C1_witness :
    (executeScenario envScenarioSkipDemo (initialRunState envScenarioSkipDemo)
        (initialSpecResult envScenarioSkipDemo) 0 demoScenario).1.trace
      = (initialRunState envScenarioSkipDemo).trace
    ∧ (executeStepFn envStepSkipDemo (initialRunState envStepSkipDemo)
        demoProtoStep).2.1.stepExecutionResult.bind (fun p => p.skipped)
      = demoProtoStep.stepExecutionResult.bind (fun p => p.skipped) :=
  ⟨C1_amended_skip_semantics.1 envScenarioSkipDemo (initialRunState envScenarioSkipDemo)
      (initialSpecResult envScenarioSkipDemo) 0 demoScenario [demoValidationError] rfl,
    (C1_amended_skip_semantics.2 envStepSkipDemo (initialRunState envStepSkipDemo)
      demoProtoStep).1⟩

/-- The skipped-scenario fold of `getSkippedSpecResult` adds one to the
skipped count per scenario and produces one skipped scenario result per
scenario. -/
theorem getSkippedScenarioResultsLoop_spec (env : Env) (specRes : SpecResult)
    (l : List Scenario) :
    (getSkippedScenarioResultsLoop env specRes l).1.scenarioSkippedCount
        = specRes.scenarioSkippedCount + l.length
    ∧ (getSkippedScenarioResultsLoop env specRes l).2.length = l.length
    ∧ (∀ sr ∈ (getSkippedScenarioResultsLoop env specRes l).2,
        sr.protoScenario.skipped = some true)
    ∧ (getSkippedScenarioResultsLoop env specRes l).1.scenarioResults
        = specRes.scenarioResults := by
  induction l generalizing specRes with
  | nil => simp [getSkippedScenarioResultsLoop]
  | cons s rest ih =>
    have h := ih ((getSkippedScenarioResult env specRes s).1)
    refine ⟨?_, ?_, ?_, ?_⟩
    · simp only [getSkippedScenarioResultsLoop]
      rw [h.1]
      simp [getSkippedScenarioResult, setSkipInfoInResult]
      omega
    · simp only [getSkippedScenarioResultsLoop, List.length_cons]
      rw [h.2.1]
    · intro sr hsr
      simp only [getSkippedScenarioResultsLoop, List.mem_cons] at hsr
      rcases hsr with hsr | hsr
      · subst hsr
        simp [getSkippedScenarioResult, setSkipInfoInResult]
      · exact h.2.2.1 sr hsr
    · simp only [getSkippedScenarioResultsLoop]
      rw [h.2.2.2]
      simp [getSkippedScenarioResult, setSkipInfoInResult]

/-- C5: for a specification in the spec-level skip map, `execute` sends no
message at all and returns a result in which every scenario is
materialized and marked skipped, the skipped count equals the number of
scenarios, and the spec-level skipped flag is set. -/
theorem C5_spec_level_skip (env : Env) (h : env.errMap.specSkipped = true) :
    (execute env).1.trace = []
    ∧ (execute env).2.scenarioResults.length = env.specification.scenarios.length
    ∧ (∀ sr ∈ (execute env).2.scenarioResults, sr.protoScenario.skipped = some true)
    ∧ (execute env).2.scenarioSkippedCount = env.specification.scenarios.length
    ∧ (execute env).2.skipped = true := by
  have hloop := getSkippedScenarioResultsLoop_spec env (initialSpecResult env)
    env.specification.scenarios
  have hcount : (initialSpecResult env).scenarioSkippedCount = 0 := rfl
  have hres : (initialSpecResult env).scenarioResults = [] := rfl
  simp only [execute, h, if_true, getSkippedSpecResult, SpecResult.addScenarioResults,
    initialRunState]
  refine ⟨by trivial, ?_, ?_, ?_, by trivial⟩
  · rw [hloop.2.2.2, hres]
    simp [hloop.2.1]
  · intro sr hsr
    rw [hloop.2.2.2, hres] at hsr
    simp only [List.nil_append] at hsr
    exact hloop.2.2.1 sr hsr
  · rw [hloop.1, hcount]
    omega

/-- Witness for C5: the concrete two-scenario skip-mapped spec yields an
empty trace, two skipped scenario results and skipped count two. -/
theorem C5_witness :
    (execute envSpecSkipDemo).1.trace = []
    ∧ (execute envSpecSkipDemo).2.scenarioResults.length = 2
    ∧ (execute envSpecSkipDemo).2.scenarioSkippedCount = 2
    ∧ (execute envSpecSkipDemo).2.skipped = true := by
  have h := C5_spec_level_skip envSpecSkipDemo rfl
  exact ⟨h.1, h.2.1, h.2.2.2.1, h.2.2.2.2⟩

/-- Counterexample for C6: for a skip-mapped specification with no
scenarios, the returned spec result has the skipped flag set although the
skipped count is zero, so the claimed "skipped iff count greater than
zero" equivalence fails on a completed `execute` call. -/
theorem C6_counterexample :
    (execute envSpecSkipNoScenarios).2.skipped = true
    ∧ (execute envSpecSkipNoScenarios).2.scenarioSkippedCount = 0 := by
  decide

/-! Lemmas about the aggregation walk of `setExecutionResultForConcept`. -/

/-- Walking a list without a failed child leaves the list untouched and
accumulates the total of the children's times. -/
theorem setExecResultWalk_no_fail (l : List ProtoItem)
    (h : ∀ i ∈ l, itemFailed i = false) (acc : Int) :
    setExecResultWalk acc l = (l, none, acc + sumItemTimes l) := by
  induction l generalizing acc with
  | nil => simp [setExecResultWalk, sumItemTimes]
  | cons x rest ih =>
    have hx := h x (by simp)
    have hrest : ∀ i ∈ rest, itemFailed i = false := fun i hi => h i (by simp [hi])
    cases x with
    | comment =>
      simp only [setExecResultWalk, ih hrest]
      simp [sumItemTimes, itemExecTime, itemExecResult]
    | step s =>
      simp only [setExecResultWalk]
      cases hr : s.stepExecutionResult.bind (fun p => p.executionResult) with
      | none =>
        simp only [ih hrest]
        simp [sumItemTimes, itemExecTime, itemExecResult, hr]
      | some rr =>
        have hf : rr.getFailed = false := by
          simpa [itemFailed, itemExecResult, hr] using hx
        simp only [hf, ih hrest]
        simp only [Bool.false_eq_true, if_false]
        simp [sumItemTimes, itemExecTime, itemExecResult, hr,
          ProtoExecutionResult.getExecutionTime]
        omega
    | concept cs steps res =>
      simp only [setExecResultWalk]
      cases hr : res.bind (fun p => p.executionResult) with
      | none =>
        simp only [ih hrest]
        simp [sumItemTimes, itemExecTime, itemExecResult, hr]
      | some rr =>
        have hf : rr.getFailed = false := by
          simpa [itemFailed, itemExecResult, hr] using hx
        simp only [hf, ih hrest]
        simp only [Bool.false_eq_true, if_false]
        simp [sumItemTimes, itemExecTime, itemExecResult, hr,
          ProtoExecutionResult.getExecutionTime]
        omega

/-- Walking past an unfailed prefix adds the prefix's total time to the
accumulator and keeps the prefix untouched. -/
theorem setExecResultWalk_append_no_fail (pre : List ProtoItem)
    (h : ∀ i ∈ pre, itemFailed i = false) (acc : Int) (rest : List ProtoItem) :
    setExecResultWalk acc (pre ++ rest)
      = (pre ++ (setExecResultWalk (acc + sumItemTimes pre) rest).1,
         (setExecResultWalk (acc + sumItemTimes pre) rest).2.1,
         (setExecResultWalk (acc + sumItemTimes pre) rest).2.2) := by
  induction pre generalizing acc with
  | nil => simp [sumItemTimes]
  | cons x pre ih =>
    have hx := h x (by simp)
    have hpre : ∀ i ∈ pre, itemFailed i = false := fun i hi => h i (by simp [hi])
    cases x with
    | comment =>
      have harg : acc + sumItemTimes (ProtoItem.comment :: pre) = acc + sumItemTimes pre := by
        simp [sumItemTimes, itemExecTime, itemExecResult]
      simp only [List.cons_append, setExecResultWalk, harg, List.append_eq]
      rw [ih hpre]
    | step s =>
      cases hr : s.stepExecutionResult.bind (fun p => p.executionResult) with
      | none =>
        have harg : acc + sumItemTimes (ProtoItem.step s :: pre) = acc + sumItemTimes pre := by
          simp [sumItemTimes, itemExecTime, itemExecResult, hr]
        simp only [List.cons_append, setExecResultWalk, hr, harg, List.append_eq]
        rw [ih hpre]
      | some rr =>
        have hf : rr.getFailed = false := by
          simpa [itemFailed, itemExecResult, hr] using hx
        have harg : acc + sumItemTimes (ProtoItem.step s :: pre)
            = acc + rr.getExecutionTime + sumItemTimes pre := by
          simp [sumItemTimes, itemExecTime, itemExecResult, hr,
            ProtoExecutionResult.getExecutionTime]
          omega
        simp only [List.cons_append, setExecResultWalk, hr, hf, Bool.false_eq_true,
          if_false, harg, List.append_eq]
        rw [ih hpre]
    | concept cs steps res =>
      cases hr : res.bind (fun p => p.executionResult) with
      | none =>
        have harg : acc + sumItemTimes (ProtoItem.concept cs steps res :: pre)
            = acc + sumItemTimes pre := by
          simp [sumItemTimes, itemExecTime, itemExecResult, hr]
        simp only [List.cons_append, setExecResultWalk, hr, harg, List.append_eq]
        rw [ih hpre]
      | some rr =>
        have hf : rr.getFailed = false := by
          simpa [itemFailed, itemExecResult, hr] using hx
        have harg : acc + sumItemTimes (ProtoItem.concept cs steps res :: pre)
            = acc + rr.getExecutionTime + sumItemTimes pre := by
          simp [sumItemTimes, itemExecTime, itemExecResult, hr,
            ProtoExecutionResult.getExecutionTime]
          omega
        simp only [List.cons_append, setExecResultWalk, hr, hf, Bool.false_eq_true,
          if_false, harg, List.append_eq]
        rw [ih hpre]

/-- C2: concept aggregation and short-circuiting.  First, when the child
list splits into an unfailed prefix, a first failing child and a tail, the
derived concept execution result is failed and its time is the sum of the
prefix's times plus the failing child's time.  Second, when no child
failed, the derived result is a success whose time is the sum of all
children's times.  Third, the execution loop of `executeConcept` stops at
the first child whose execution reports failure: it returns right after
the aggregation, so the remaining children are never executed and
contribute nothing to the trace. -/
theorem C2_concept_first_failure_aggregation :
    (∀ (cs : ProtoStepData) (pre : List ProtoItem) (x : ProtoItem) (post : List ProtoItem),
      (∀ i ∈ pre, itemFailed i = false) → itemFailed x = true →
        pserFailed (setExecutionResultForConcept cs (pre ++ x :: post)).2.2 = true
        ∧ pserTime (setExecutionResultForConcept cs (pre ++ x :: post)).2.2
            = sumItemTimes pre + itemExecTime x)
    ∧ (∀ (cs : ProtoStepData) (l : List ProtoItem),
      (∀ i ∈ l, itemFailed i = false) →
        pserFailed (setExecutionResultForConcept cs l).2.2 = false
        ∧ pserTime (setExecutionResultForConcept cs l).2.2 = sumItemTimes l)
    ∧ (∀ (env : Env) (rs : RunState) (cs : ProtoStepData)
        (res : Option ProtoStepExecutionResult) (done : List ProtoItem) (x : ProtoItem)
        (rest : List ProtoItem),
      (executeItem env rs x).2.2 = true →
        executeConceptLoop env rs cs res done (x :: rest)
          = ((executeItem env rs x).1,
             (setExecutionResultForConcept cs (done ++ (executeItem env rs x).2.1 :: rest)).1,
             (setExecutionResultForConcept cs (done ++ (executeItem env rs x).2.1 :: rest)).2.1,
             some (setExecutionResultForConcept cs
               (done ++ (executeItem env rs x).2.1 :: rest)).2.2,
             true)) := by
  refine ⟨?_, ?_, ?_⟩
  · intro cs pre x post hpre hx
    simp only [setExecutionResultForConcept,
      setExecResultWalk_append_no_fail pre hpre 0 (x :: post)]
    cases x with
    | comment => simp [itemFailed, itemExecResult] at hx
    | step s =>
      cases hr : s.stepExecutionResult.bind (fun p => p.executionResult) with
      | none => simp [itemFailed, itemExecResult, hr] at hx
      | some rr =>
        have hf : rr.getFailed = true := by
          simpa [itemFailed, itemExecResult, hr] using hx
        simp only [setExecResultWalk, hr, hf, if_true]
        simp [pserFailed, pserTime, ProtoExecutionResult.getFailed,
          ProtoExecutionResult.getExecutionTime, itemExecTime, itemExecResult, hr]
        exact hf
    | concept ccs csteps cres =>
      cases hr : cres.bind (fun p => p.executionResult) with
      | none => simp [itemFailed, itemExecResult, hr] at hx
      | some rr =>
        have hf : rr.getFailed = true := by
          simpa [itemFailed, itemExecResult, hr] using hx
        simp only [setExecResultWalk, hr, hf, if_true]
        simp [pserFailed, pserTime, ProtoExecutionResult.getFailed,
          ProtoExecutionResult.getExecutionTime, itemExecTime, itemExecResult, hr]
        exact hf
  · intro cs l h
    simp only [setExecutionResultForConcept, setExecResultWalk_no_fail l h 0]
    simp [pserFailed, pserTime, ProtoExecutionResult.getFailed]
  · intro env rs cs res done x rest h
    rw [executeConceptLoop]
    simp only [h, if_true]

/-- Witness for C2: the concept with children succeeding in 10ms, failing
in 5ms and succeeding in 1ms aggregates to a failed result of exactly
15ms, and with all three succeeding to a success of 16ms; a concrete
failing child stops the loop. -/
theorem C2_witness :
    (pserFailed (setExecutionResultForConcept demoConceptStep
        [demoChildS1, demoChildS2, demoChildS3]).2.2 = true
      ∧ pserTime (setExecutionResultForConcept demoConceptStep
        [demoChildS1, demoChildS2, demoChildS3]).2.2 = 15)
    ∧ (pserFailed (setExecutionResultForConcept demoConceptStep
        [demoChildS1, demoChildS3]).2.2 = false
      ∧ pserTime (setExecutionResultForConcept demoConceptStep
        [demoChildS1, demoChildS3]).2.2 = 11)
    ∧ executeConceptLoop envTransportErrorDemo (initialRunState envTransportErrorDemo)
        demoConceptStep none [] [ProtoItem.step demoProtoStep]
        = ((executeItem envTransportErrorDemo (initialRunState envTransportErrorDemo)
              (ProtoItem.step demoProtoStep)).1,
           (setExecutionResultForConcept demoConceptStep
             ([] ++ (executeItem envTransportErrorDemo (initialRunState envTransportErrorDemo)
               (ProtoItem.step demoProtoStep)).2.1 :: [])).1,
           (setExecutionResultForConcept demoConceptStep
             ([] ++ (executeItem envTransportErrorDemo (initialRunState envTransportErrorDemo)
               (ProtoItem.step demoProtoStep)).2.1 :: [])).2.1,
           some (setExecutionResultForConcept demoConceptStep
             ([] ++ (executeItem envTransportErrorDemo (initialRunState envTransportErrorDemo)
               (ProtoItem.step demoProtoStep)).2.1 :: [])).2.2,
           true) := by
  have hsplit : [demoChildS1, demoChildS2, demoChildS3]
      = [demoChildS1] ++ demoChildS2 :: [demoChildS3] := rfl
  refine ⟨?_, ?_, ?_⟩
  · have h := C2_concept_first_failure_aggregation.1 demoConceptStep [demoChildS1]
      demoChildS2 [demoChildS3] (by decide) (by decide)
    rw [hsplit]
    refine ⟨h.1, ?_⟩
    rw [h.2]
    decide
  · have h := C2_concept_first_failure_aggregation.2.1 demoConceptStep
      [demoChildS1, demoChildS3] (by decide)
    refine ⟨h.1, ?_⟩
    rw [h.2]
    decide
  · refine C2_concept_first_failure_aggregation.2.2 envTransportErrorDemo
      (initialRunState envTransportErrorDemo) demoConceptStep none []
      (ProtoItem.step demoProtoStep) [] ?_
    have h := (C8_protocol_errors_and_before_step_hook.2.2.2.2 envTransportErrorDemo
      (initialRunState envTransportErrorDemo) demoProtoStep (by decide)).1
    simpa [executeItem] using h

/-- C10: when the aggregation walk finds the first failing child (a step),
the concept's derived execution result and the failing child's stored
execution result are the very same record, whose execution time has been
overwritten with the cumulative time of the children up to and including
the failing child; afterwards the failing child's recorded time is the
concept's cumulative time, not the child's own time. -/
theorem C10_failing_child_result_shared (cs : ProtoStepData) (pre : List ProtoItem)
    (s : ProtoStepData) (rr : ProtoExecutionResult) (post : List ProtoItem)
    (hpre : ∀ i ∈ pre, itemFailed i = false)
    (hres : s.stepExecutionResult.bind (fun p => p.executionResult) = some rr)
    (hf : rr.getFailed = true) :
    (setExecutionResultForConcept cs (pre ++ ProtoItem.step s :: post)).2.2
        = { executionResult := some ({ rr with
              executionTime := some (sumItemTimes pre + rr.getExecutionTime) }),
            skipped := some false }
    ∧ (setExecutionResultForConcept cs (pre ++ ProtoItem.step s :: post)).2.1
        = pre ++ ProtoItem.step (overwriteStepResult s ({ rr with
            executionTime := some (sumItemTimes pre + rr.getExecutionTime) })) :: post
    ∧ itemExecTime (ProtoItem.step (overwriteStepResult s ({ rr with
          executionTime := some (sumItemTimes pre + rr.getExecutionTime) })))
        = sumItemTimes pre + rr.getExecutionTime := by
  simp only [setExecutionResultForConcept,
    setExecResultWalk_append_no_fail pre hpre 0 (ProtoItem.step s :: post),
    setExecResultWalk, hres, hf, if_true]
  have hz : (0 : Int) + sumItemTimes pre + rr.getExecutionTime
      = sumItemTimes pre + rr.getExecutionTime := by omega
  refine ⟨?_, ?_, ?_⟩
  · simp [ProtoExecutionResult.getExecutionTime, hz]
  · simp [ProtoExecutionResult.getExecutionTime, hz]
  · simp [itemExecTime, itemExecResult, overwriteStepResult]

/-- Witness for C10: with a 10ms successful sibling before it, the failing
5ms child's stored execution result is overwritten to 15ms — equal to the
concept's derived time and different from the child's own 5ms. -/
theorem C10_witness :
    (setExecutionResultForConcept demoConceptStep
        [demoChildS1, demoChildS2]).2.2.executionResult
      = some { failed := some true, executionTime := some 15 }
    ∧ (setExecutionResultForConcept demoConceptStep [demoChildS1, demoChildS2]).2.1
      = [demoChildS1, ProtoItem.step (overwriteStepResult (demoExecutedStep "s2" true 5)
          { failed := some true, executionTime := some 15 })]
    ∧ (15 : Int) ≠ 5 := by
  have h := C10_failing_child_result_shared demoConceptStep [demoChildS1]
    (demoExecutedStep "s2" true 5) { failed := some true, executionTime := some 5 } []
    (by decide) (by decide) (by decide)
  have hsplit : [demoChildS1, demoChildS2]
      = [demoChildS1] ++ ProtoItem.step (demoExecutedStep "s2" true 5) :: [] := rfl
  refine ⟨?_, ?_, by decide⟩
  · rw [hsplit, h.1]
    decide
  · rw [hsplit, h.2.1]
    rfl

theorem executeBeforeSpecHook_fst (env : Env) (rs : RunState) (specRes : SpecResult) :
    (executeBeforeSpecHook env rs specRes).1
      = { rs with trace := rs.trace ++ [Msg.specExecutionStarting rs.info] } := by
  simp only [executeBeforeSpecHook, executeAndGetStatus_fst]

theorem executeAfterSpecHook_fst (env : Env) (rs : RunState) (specRes : SpecResult) :
    (executeAfterSpecHook env rs specRes).1
      = { rs with trace := rs.trace ++ [Msg.specExecutionEnding rs.info] } := by
  simp only [executeAfterSpecHook, executeAndGetStatus_fst]

/-- C3: for a specification not in the skip map whose before-spec hook
fails, `execute` sends exactly the two spec hook messages (so no scenario
of the specification is executed in that pass and the after-spec hook is
still sent afterwards), records the hook failure as the pre-hook entry of
the spec result, and marks the spec failed in the Execution Info. -/
theorem C3_before_spec_hook_failure (env : Env)
    (h1 : env.errMap.specSkipped = false)
    (h2 : (executeBeforeSpecHook env (initialRunState env)
        (initialSpecResult env)).2.2.getFailed = true) :
    (execute env).1.trace
        = [Msg.specExecutionStarting (initialExecutionInfo env),
           Msg.specExecutionEnding (setSpecFailureInfo (initialExecutionInfo env))]
    ∧ (execute env).2.preHookFailure
        = some (getProtoHookFailure
            (executeBeforeSpecHook env (initialRunState env) (initialSpecResult env)).2.2)
    ∧ ((execute env).1.info.currentSpec.map (fun s => s.isFailed)) = some true
    ∧ (execute env).2.scenarioResults = []
    ∧ (execute env).2.tableDrivenResults = [] := by
  have hb := executeBeforeSpecHook_fst env (initialRunState env) (initialSpecResult env)
  simp only [initialRunState] at hb h2
  simp only [execute, h1, Bool.false_eq_true, if_false, initialRunState, h2, if_true]
  refine ⟨?_, ?_, ?_, ?_, ?_⟩
  · split <;>
      simp [executeAfterSpecHook_fst, hb, RunState.specFailed]
  · split <;>
      simp [SpecResult.addPreHook, SpecResult.addPostHook, SpecResult.addExecTime,
        executeAfterSpecHook]
  · split <;>
      (simp only [executeAfterSpecHook_fst, hb, RunState.specFailed]
       simp [setSpecFailureInfo, initialExecutionInfo])
  · split <;>
      simp [SpecResult.addPreHook, SpecResult.addPostHook, SpecResult.addExecTime,
        executeAfterSpecHook, executeBeforeSpecHook, initialSpecResult, newSpecResult,
        SpecResult.addSpecItems]
  · split <;>
      simp [SpecResult.addPreHook, SpecResult.addPostHook, SpecResult.addExecTime,
        executeAfterSpecHook, executeBeforeSpecHook, initialSpecResult, newSpecResult,
        SpecResult.addSpecItems]

/-- Witness for C3: over the failing channel the before-spec hook fails and
a concrete `execute` run sends exactly the two spec hook messages. -/
theorem C3_witness :
    (execute envTransportErrorDemo).1.trace
        = [Msg.specExecutionStarting (initialExecutionInfo envTransportErrorDemo),
           Msg.specExecutionEnding (setSpecFailureInfo
             (initialExecutionInfo envTransportErrorDemo))]
    ∧ (execute envTransportErrorDemo).2.scenarioResults = [] := by
  have h := C3_before_spec_hook_failure envTransportErrorDemo rfl (by decide)
  exact ⟨h.1, h.2.2.2.1⟩

/-- C4: once the before-scenario hook has succeeded, the tear-down items
are always executed — the scenario execution factors through
`executeTearDownItems`, with the scenario's own items executed only when
the context phase did not fail — and the failure of each phase's item walk
is OR-ed into the scenario's overall failure flag. -/
theorem C4_teardown_and_failure_or :
    (∀ (env : Env) (rs : RunState) (sr : ScenarioResult),
      (executeTearDownItems env rs sr).2.getFailure
        = (sr.getFailure || (executeItems env rs sr.protoScenario.tearDownSteps).2.2))
    ∧ (∀ (env : Env) (rs : RunState) (sr : ScenarioResult),
      (executeContextItems env rs sr).2.getFailure
        = (sr.getFailure || (executeItems env rs sr.protoScenario.contexts).2.2))
    ∧ (∀ (env : Env) (rs : RunState) (sr : ScenarioResult),
      (executeScenarioItems env rs sr).2.getFailure
        = (sr.getFailure || (executeItems env rs sr.protoScenario.scenarioItems).2.2))
    ∧ (∀ (env : Env) (rs : RunState) (specRes : SpecResult) (row : Nat)
        (scenario : Scenario),
      env.errMap.lookupScenario scenario = none →
      (executeBeforeScenarioHook env (scenarioStartState rs scenario)
          (scenarioShell env row scenario)).2.2.getFailed = false →
        executeScenario env rs specRes row scenario
          = (let b := executeBeforeScenarioHook env (scenarioStartState rs scenario)
               (scenarioShell env row scenario)
             let c := executeContextItems env b.1 b.2.1
             let d := if c.2.getFailure then c else executeScenarioItems env c.1 c.2
             let t := executeTearDownItems env d.1 d.2
             let a := executeAfterScenarioHook env t.1 t.2
             (if a.2.2.getFailed then a.1.scenarioFailed else a.1, specRes,
               (a.2.1.addPostHook a.2.2).updateExecutionTime))) := by
  refine ⟨?_, ?_, ?_, ?_⟩
  · intro env rs sr
    simp only [executeTearDownItems]
    cases hw : (executeItems env rs sr.protoScenario.tearDownSteps).2.2 <;>
      simp [hw, ScenarioResult.setFailure, ScenarioResult.getFailure]
  · intro env rs sr
    simp only [executeContextItems]
    cases hw : (executeItems env rs sr.protoScenario.contexts).2.2 <;>
      simp [hw, ScenarioResult.setFailure, ScenarioResult.getFailure]
  · intro env rs sr
    simp only [executeScenarioItems]
    cases hw : (executeItems env rs sr.protoScenario.scenarioItems).2.2 <;>
      simp [hw, ScenarioResult.setFailure, ScenarioResult.getFailure]
  · intro env rs specRes row scenario hskip hbs
    simp only [executeScenario, hskip, hbs, Bool.false_eq_true, if_false]
    cases hcf : (executeContextItems env
        (executeBeforeScenarioHook env (scenarioStartState rs scenario)
          (scenarioShell env row scenario)).1
        (executeBeforeScenarioHook env (scenarioStartState rs scenario)
          (scenarioShell env row scenario)).2.1).2.getFailure <;>
      simp [hcf]

/-- Witness for C4: a concrete run of a scenario whose body step fails
(worker reports failure for every executed step) still factors through the
tear-down execution, and the OR rule holds at a concrete scenario result. -/
theorem C4_witness :
    (executeScenario envStepSkipDemo (initialRunState envStepSkipDemo)
        (initialSpecResult envStepSkipDemo) 0 demoScenario
      = (let b := executeBeforeScenarioHook envStepSkipDemo
           (scenarioStartState (initialRunState envStepSkipDemo) demoScenario)
           (scenarioShell envStepSkipDemo 0 demoScenario)
         let c := executeContextItems envStepSkipDemo b.1 b.2.1
         let d := if c.2.getFailure then c
                  else executeScenarioItems envStepSkipDemo c.1 c.2
         let t := executeTearDownItems envStepSkipDemo d.1 d.2
         let a := executeAfterScenarioHook envStepSkipDemo t.1 t.2
         (if a.2.2.getFailed then a.1.scenarioFailed else a.1,
           initialSpecResult envStepSkipDemo,
           (a.2.1.addPostHook a.2.2).updateExecutionTime)))
    ∧ (executeTearDownItems envStepSkipDemo (initialRunState envStepSkipDemo)
        (scenarioShell envStepSkipDemo 0 demoScenario)).2.getFailure
      = ((scenarioShell envStepSkipDemo 0 demoScenario).getFailure
          || (executeItems envStepSkipDemo (initialRunState envStepSkipDemo)
              (scenarioShell envStepSkipDemo 0 demoScenario).protoScenario.tearDownSteps).2.2) := by
  constructor
  · exact C4_teardown_and_failure_or.2.2.2 envStepSkipDemo
      (initialRunState envStepSkipDemo) (initialSpecResult envStepSkipDemo) 0
      demoScenario rfl (by decide)
  · exact C4_teardown_and_failure_or.1 envStepSkipDemo (initialRunState envStepSkipDemo)
      (scenarioShell envStepSkipDemo 0 demoScenario)

/-! Counting lemmas for the skipped-scenario counter. -/

/-- `executeScenario` increments the skipped count exactly when the
scenario is in the skip map, and touches no other spec-result field. -/
theorem executeScenario_specRes (env : Env) (rs : RunState) (specRes : SpecResult)
    (row : Nat) (scenario : Scenario) :
    (executeScenario env rs specRes row scenario).2.1
      = (if (env.errMap.lookupScenario scenario).isSome then
          { specRes with scenarioSkippedCount := specRes.scenarioSkippedCount + 1 }
         else specRes) := by
  cases h : env.errMap.lookupScenario scenario with
  | none => simp [executeScenario, h]
  | some errs => simp [executeScenario, h, setSkipInfoInResult]

/-- One pass of `executeScenarios` adds one to the skipped count per
skip-mapped scenario of the list. -/
theorem executeScenariosLoop_specRes (env : Env) (row : Nat) (l : List Scenario) :
    ∀ (rs : RunState) (specRes : SpecResult),
    (executeScenariosLoop env rs specRes row l).2.1
      = { specRes with scenarioSkippedCount := specRes.scenarioSkippedCount
          + (l.filter (fun s => (env.errMap.lookupScenario s).isSome)).length } := by
  induction l with
  | nil => intro rs specRes; simp [executeScenariosLoop]
  | cons s rest ih =>
    intro rs specRes
    simp only [executeScenariosLoop]
    rw [ih, executeScenario_specRes]
    cases h : (env.errMap.lookupScenario s).isSome <;>
      (simp [h, List.filter]; try omega)

/-- The row loop adds the per-pass skipped count once per remaining row. -/
theorem executeRowsLoop_specRes (env : Env) :
    ∀ (n : Nat) (rs : RunState) (specRes : SpecResult) (row : Nat)
      (acc : List (List ScenarioResult)),
    env.dataTableIndex.endIdx + 1 - row = n →
    (executeRowsLoop env rs specRes row acc).2.1
      = { specRes with scenarioSkippedCount := specRes.scenarioSkippedCount
          + n * scenariosInSkipMapCount env } := by
  intro n
  induction n with
  | zero =>
    intro rs specRes row acc hn
    have hrow : ¬ row ≤ env.dataTableIndex.endIdx := by omega
    rw [executeRowsLoop]
    simp [hrow]
  | succ n ih =>
    intro rs specRes row acc hn
    have hrow : row ≤ env.dataTableIndex.endIdx := by omega
    rw [executeRowsLoop]
    simp only [hrow, if_true]
    rw [ih _ _ (row + 1) _ (by omega)]
    simp only [executeScenarios]
    rw [executeScenariosLoop_specRes]
    simp only [scenariosInSkipMapCount, SpecResult.mk.injEq, true_and, and_true]
    ring

/-- C6 (amended): for a specification not in the spec-level skip map, the
completed `execute` call's `ScenarioSkippedCount` equals the number of
scenario executions (across all executed passes) whose scenario was in the
skip map — zero passes when the before-spec hook failed — and the
spec-level skipped flag is set iff that count is positive. -/
theorem C6_amended_skipped_count (env : Env) (h : env.errMap.specSkipped = false) :
    (execute env).2.scenarioSkippedCount = skippedScenarioExecutionsCount env
    ∧ ((execute env).2.skipped = true ↔ 0 < (execute env).2.scenarioSkippedCount) := by
  constructor
  · simp only [execute, h, Bool.false_eq_true, if_false]
    by_cases hbf : (executeBeforeSpecHook env (initialRunState env)
        (initialSpecResult env)).2.2.getFailed = true
    · simp only [skippedScenarioExecutionsCount, hbf, if_true]
      split <;>
        simp [SpecResult.addPreHook, SpecResult.addPostHook, SpecResult.addExecTime,
          executeAfterSpecHook, executeBeforeSpecHook, initialSpecResult, newSpecResult,
          SpecResult.addSpecItems]
    · simp only [Bool.not_eq_true] at hbf
      simp only [skippedScenarioExecutionsCount, hbf, Bool.false_eq_true, if_false]
      by_cases hrc : env.specification.dataTable.rowCount = 0
      · rw [if_pos hrc]
        split <;>
          (simp only [SpecResult.addPostHook, SpecResult.addExecTime, executeAfterSpecHook,
             SpecResult.addScenarioResults, executeScenarios]
           rw [executeScenariosLoop_specRes]
           simp [executeBeforeSpecHook, SpecResult.addExecTime, initialSpecResult,
             newSpecResult, SpecResult.addSpecItems, rowsExecutedCount, hrc,
             scenariosInSkipMapCount])
      · rw [if_neg hrc]
        split <;>
          (simp only [SpecResult.addPostHook, SpecResult.addExecTime, executeAfterSpecHook,
             executeTableDrivenSpec, SpecResult.addTableDrivenScenarioResult]
           rw [executeRowsLoop_specRes env (env.dataTableIndex.endIdx + 1
               - env.dataTableIndex.start) _ _ _ _ rfl]
           simp [executeBeforeSpecHook, SpecResult.addExecTime, initialSpecResult,
             newSpecResult, SpecResult.addSpecItems, rowsExecutedCount, hrc])
  · simp only [execute, h, Bool.false_eq_true, if_false]
    simp

/-- Witness for C6 (amended): a concrete spec outside the spec-level skip
map whose single scenario is skip-mapped satisfies both conclusions. -/
theorem C6_witness :
    (execute envScenarioSkipDemo).2.scenarioSkippedCount
        = skippedScenarioExecutionsCount envScenarioSkipDemo
    ∧ ((execute envScenarioSkipDemo).2.skipped = true
        ↔ 0 < (execute envScenarioSkipDemo).2.scenarioSkippedCount) :=
  C6_amended_skipped_count envScenarioSkipDemo rfl

/-! Concept-template heap model, for the resolution-purity claim about
`resolveToProtoConceptItem`.  Go's `gauge.Step` holds its concept children
as a slice of pointers, so the value copy taken by the resolver (source
line 342) shares the child step objects with the static template (the
dereference `*step` at line 352 shows `ConceptSteps` is `[]*Step`).  The
heap below makes that sharing explicit: steps live at numeric addresses,
a concept's `children` are addresses, and line 351's
`step.Parent = &concept` is a write through a shared address. -/

/-- A `gauge.Step` object on the template heap: the fields relevant to
concept resolution, with `parent` and `children` as heap addresses. -/
structure HStep where
  name : String := ""
  isConcept : Bool := false
  parent : Option Nat := none
  children : List Nat := []
  dynParams : List String := []
  lookup : List (String × String) := []
  deriving Repr, DecidableEq

/-- The heap of shared step objects. -/
abbrev ConceptHeap := List HStep

/-- A step with its parent back-reference cleared, for stating that a
mutation touches at most the parent field. -/
def eraseParent (s : HStep) : HStep := { s with parent := none }

/-- Modelled from the spec: `parser.PopulateConceptDynamicParams` of the
repository (not under src/) populates the copy's own dynamic arguments
from the active data-table row (spec section 4.3). -/
def populateConceptDynamicParams (dataLookup : List (String × String)) (s : HStep) : HStep :=
  { s with lookup := s.dynParams.map (fun n => (n, lookupValue dataLookup n)) }

/-- Modelled from the spec: the resolved parameter values of a plain child
step — dynamic names resolve through the enclosing concept copy's
populated lookup, then through the data-table row (spec sections 2 and
4.3); a pure function of the step, the enclosing copy and the row. -/
def resolveChildParams (enclosing : HStep) (dataLookup : List (String × String))
    (child : HStep) : List (String × String) :=
  child.dynParams.map (fun n =>
    (n, match enclosing.lookup.find? (fun p => p.1 = n) with
        | some p => p.2
        | none => lookupValue dataLookup n))

/-- The resolved output of a concept invocation: names and resolved
parameter values only (heap addresses do not appear in the output). -/
inductive ConceptProto where
  | step (name : String) (params : List (String × String))
  | concept (name : String) (lookup : List (String × String)) (children : List ConceptProto)

/-- The value written through the shared pointer at source line 351: the
child step object with its parent back-reference rebound to the enclosing
copy's address. -/
def rebindParent (heap : ConceptHeap) (r selfId : Nat) : HStep :=
  { heap.getD r {} with parent := some selfId }

/-- The child loop of `resolveToProtoConceptItem` (source lines 348-358),
over the resolver for one nesting level: a concept child first has its
parent pointer rebound in place on the shared heap (line 351) and is then
resolved from its updated value; a plain child's parameters are resolved
against the enclosing copy. -/
def resolveConceptChildren (f : ConceptHeap → HStep → ConceptHeap × ConceptProto)
    (enclosing : HStep) (selfId : Nat) (dataLookup : List (String × String)) :
    ConceptHeap → List Nat → ConceptHeap × List ConceptProto
  | heap, [] => (heap, [])
  | heap, r :: rest =>
    if (heap.getD r {}).isConcept then
      let e := f (heap.set r (rebindParent heap r selfId)) (rebindParent heap r selfId)
      let k := resolveConceptChildren f enclosing selfId dataLookup e.1 rest
      (k.1, e.2 :: k.2)
    else
      let k := resolveConceptChildren f enclosing selfId dataLookup heap rest
      (k.1, ConceptProto.step (heap.getD r {}).name
        (resolveChildParams enclosing dataLookup (heap.getD r {})) :: k.2)

/-- `resolveToProtoConceptItem` of the source over the concept heap: the
concept argument is a value copy (Go passes `gauge.Step` by value); its
dynamic parameters are populated from the active row, its address is taken
(`&concept`: the copy is materialized on the heap at a fresh address) and
each child is resolved in order.  The `fuel` argument bounds the concept
nesting depth. -/
def resolveConceptH (fuel : Nat) (dataLookup : List (String × String)) :
    ConceptHeap → HStep → ConceptHeap × ConceptProto :=
  match fuel with
  | 0 => fun heap _ => (heap, ConceptProto.step "" [])
  | Nat.succ fuel => fun heap concept =>
    let concept := populateConceptDynamicParams dataLookup concept
    let selfId := heap.length
    let heap := heap ++ [concept]
    let r := resolveConceptChildren (resolveConceptH fuel dataLookup) concept selfId
      dataLookup heap concept.children
    (r.1, ConceptProto.concept concept.name concept.lookup r.2)

/-- The demonstration template: a nested concept child at address 1. -/
def demoTemplateChild : HStep :=
  { name := "inner", isConcept := true, dynParams := ["p"] }

/-- The demonstration template root concept, whose only child is the
shared step object at address 1. -/
def demoTemplateRoot : HStep :=
  { name := "outer", isConcept := true, children := [1] }

/-- The static template heap: root at address 0, its child at address 1. -/
def demoConceptHeap : ConceptHeap := [demoTemplateRoot, demoTemplateChild]

theorem getD_set' {α : Type} (l : List α) (r i : Nat) (v d : α) :
    (l.set r v).getD i d = if r = i ∧ r < l.length then v else l.getD i d := by
  induction l generalizing r i with
  | nil => simp
  | cons x xs ih =>
    cases r with
    | zero => cases i <;> simp
    | succ r =>
      cases i with
      | zero => simp
      | succ i =>
        show (x :: xs.set r v).getD (i + 1) d = _
        rw [List.getD_cons_succ, ih]
        by_cases h : r = i ∧ r < xs.length
        · rw [if_pos h, if_pos ⟨by omega, by (simp; omega)⟩]
        · rw [if_neg h, if_neg (by simp; omega), List.getD_cons_succ]

/-- Writing a rebound-parent value through a shared address changes no
heap entry up to `eraseParent`. -/
theorem eraseParent_getD_rebind (heap : ConceptHeap) (r selfId : Nat) (i : Nat) :
    eraseParent ((heap.set r (rebindParent heap r selfId)).getD i {})
      = eraseParent (heap.getD i {}) := by
  rw [getD_set']
  by_cases h : r = i ∧ r < heap.length
  · rw [if_pos h, ← h.1]
    rfl
  · rw [if_neg h]

/-- The two heaps agree on every entry below `n` up to the parent field. -/
def heapsAgreeBelow (n : Nat) (A B : ConceptHeap) : Prop :=
  ∀ i, i < n → eraseParent (A.getD i {}) = eraseParent (B.getD i {})

/-- Every child reference of every entry below `n` stays below `n`. -/
def heapRefsBounded (n : Nat) (A : ConceptHeap) : Prop :=
  ∀ i, i < n → ∀ r ∈ (A.getD i {}).children, r < n

theorem eraseParent_children (s t : HStep) (h : eraseParent s = eraseParent t) :
    s.children = t.children := by
  have := congrArg HStep.children h
  simpa [eraseParent] using this

theorem eraseParent_isConcept (s t : HStep) (h : eraseParent s = eraseParent t) :
    s.isConcept = t.isConcept := by
  have := congrArg HStep.isConcept h
  simpa [eraseParent] using this

theorem eraseParent_name (s t : HStep) (h : eraseParent s = eraseParent t) :
    s.name = t.name := by
  have := congrArg HStep.name h
  simpa [eraseParent] using this

theorem eraseParent_dynParams (s t : HStep) (h : eraseParent s = eraseParent t) :
    s.dynParams = t.dynParams := by
  have := congrArg HStep.dynParams h
  simpa [eraseParent] using this

theorem eraseParent_lookup (s t : HStep) (h : eraseParent s = eraseParent t) :
    s.lookup = t.lookup := by
  have := congrArg HStep.lookup h
  simpa [eraseParent] using this

theorem eraseParent_set_parent (s : HStep) (p : Option Nat) :
    eraseParent { s with parent := p } = eraseParent s := rfl

/-- The property that a resolver touches existing heap entries at most in
their parent field and only ever grows the heap. -/
def ResolverEffect (f : ConceptHeap → HStep → ConceptHeap × ConceptProto) : Prop :=
  ∀ (heap : ConceptHeap) (c : HStep),
    heap.length ≤ (f heap c).1.length
    ∧ ∀ i, i < heap.length →
        eraseParent ((f heap c).1.getD i {}) = eraseParent (heap.getD i {})

theorem resolveConceptChildren_effect
    (f : ConceptHeap → HStep → ConceptHeap × ConceptProto) (hf : ResolverEffect f)
    (enclosing : HStep) (selfId : Nat) (dl : List (String × String)) :
    ∀ (refs : List Nat) (heap : ConceptHeap),
      heap.length ≤ (resolveConceptChildren f enclosing selfId dl heap refs).1.length
      ∧ ∀ i, i < heap.length →
          eraseParent ((resolveConceptChildren f enclosing selfId dl heap refs).1.getD i {})
            = eraseParent (heap.getD i {}) := by
  intro refs
  induction refs with
  | nil => intro heap; simp [resolveConceptChildren]
  | cons r rest ih =>
    intro heap
    simp only [resolveConceptChildren]
    by_cases hc : (heap.getD r {}).isConcept = true
    · rw [if_pos hc]
      dsimp only
      have hlen1 : (heap.set r (rebindParent heap r selfId)).length = heap.length := by
        simp
      have hf1 := hf (heap.set r (rebindParent heap r selfId)) (rebindParent heap r selfId)
      have hrest := ih (f (heap.set r (rebindParent heap r selfId))
        (rebindParent heap r selfId)).1
      constructor
      · omega
      · intro i hi
        rw [hrest.2 i (by omega), hf1.2 i (by omega)]
        exact eraseParent_getD_rebind heap r selfId i
    · rw [if_neg hc]
      have hrest := ih heap
      exact ⟨hrest.1, hrest.2⟩

theorem resolveConceptH_effect (fuel : Nat) (dl : List (String × String)) :
    ResolverEffect (resolveConceptH fuel dl) := by
  induction fuel with
  | zero => intro heap c; simp [resolveConceptH]
  | succ fuel ih =>
    intro heap c
    simp only [resolveConceptH]
    set pc := populateConceptDynamicParams dl c with hpc
    have hch := resolveConceptChildren_effect (resolveConceptH fuel dl) ih pc
      heap.length dl pc.children (heap ++ [pc])
    have hlen : (heap ++ [pc]).length = heap.length + 1 := by simp
    constructor
    · omega
    · intro i hi
      rw [hch.2 i (by omega)]
      rw [List.getD_append _ _ _ _ (by omega)]

theorem resolveConceptChildren_congr
    (fA fB : ConceptHeap → HStep → ConceptHeap × ConceptProto) (n : Nat)
    (hfA : ResolverEffect fA) (hfB : ResolverEffect fB)
    (hcong : ∀ (A B : ConceptHeap) (cA cB : HStep),
      n ≤ A.length → n ≤ B.length → heapsAgreeBelow n A B → heapRefsBounded n A →
      eraseParent cA = eraseParent cB → (∀ r ∈ cA.children, r < n) →
      (fA A cA).2 = (fB B cB).2)
    (encA encB : HStep) (henc : eraseParent encA = eraseParent encB)
    (selfIdA selfIdB : Nat) (dl : List (String × String)) :
    ∀ (refs : List Nat) (A B : ConceptHeap),
      n ≤ A.length → n ≤ B.length → heapsAgreeBelow n A B → heapRefsBounded n A →
      (∀ r ∈ refs, r < n) →
      (resolveConceptChildren fA encA selfIdA dl A refs).2
        = (resolveConceptChildren fB encB selfIdB dl B refs).2 := by
  intro refs
  induction refs with
  | nil => intro A B _ _ _ _ _; simp [resolveConceptChildren]
  | cons r rest ih =>
    intro A B hA hB hagree hbound hrefs
    have hr : r < n := hrefs r (by simp)
    have hrrest : ∀ q ∈ rest, q < n := fun q hq => hrefs q (by simp [hq])
    have hchild : eraseParent (A.getD r {}) = eraseParent (B.getD r {}) := hagree r hr
    simp only [resolveConceptChildren]
    by_cases hc : (A.getD r {}).isConcept = true
    · have hcB : (B.getD r {}).isConcept = true := by
        rw [← eraseParent_isConcept _ _ hchild]; exact hc
      rw [if_pos hc, if_pos hcB]
      have hlenA1 : (A.set r (rebindParent A r selfIdA)).length = A.length := by simp
      have hlenB1 : (B.set r (rebindParent B r selfIdB)).length = B.length := by simp
      have hagA1 : ∀ i, eraseParent ((A.set r (rebindParent A r selfIdA)).getD i {})
          = eraseParent (A.getD i {}) :=
        fun i => eraseParent_getD_rebind A r selfIdA i
      have hagB1 : ∀ i, eraseParent ((B.set r (rebindParent B r selfIdB)).getD i {})
          = eraseParent (B.getD i {}) :=
        fun i => eraseParent_getD_rebind B r selfIdB i
      have hagree1 : heapsAgreeBelow n (A.set r (rebindParent A r selfIdA))
          (B.set r (rebindParent B r selfIdB)) := by
        intro i hi
        rw [hagA1 i, hagB1 i]
        exact hagree i hi
      have hbound1 : heapRefsBounded n (A.set r (rebindParent A r selfIdA)) := by
        intro i hi q hq
        refine hbound i hi q ?_
        rw [← eraseParent_children _ _ (hagA1 i)]
        exact hq
      have hcc : eraseParent (rebindParent A r selfIdA)
          = eraseParent (rebindParent B r selfIdB) := by
        simp only [rebindParent, eraseParent_set_parent]
        exact hchild
      have hccrefs : ∀ q ∈ (rebindParent A r selfIdA).children, q < n := by
        intro q hq
        exact hbound r hr q hq
      have hout := hcong (A.set r (rebindParent A r selfIdA))
        (B.set r (rebindParent B r selfIdB)) _ _ (by omega) (by omega)
        hagree1 hbound1 hcc hccrefs
      have heffA := hfA (A.set r (rebindParent A r selfIdA)) (rebindParent A r selfIdA)
      have heffB := hfB (B.set r (rebindParent B r selfIdB)) (rebindParent B r selfIdB)
      have hagree2 : heapsAgreeBelow n
          (fA (A.set r (rebindParent A r selfIdA)) (rebindParent A r selfIdA)).1
          (fB (B.set r (rebindParent B r selfIdB)) (rebindParent B r selfIdB)).1 := by
        intro i hi
        rw [heffA.2 i (by omega), heffB.2 i (by omega), hagA1 i, hagB1 i]
        exact hagree i hi
      have hbound2 : heapRefsBounded n
          (fA (A.set r (rebindParent A r selfIdA)) (rebindParent A r selfIdA)).1 := by
        intro i hi q hq
        refine hbound1 i hi q ?_
        rw [← eraseParent_children _ _ (heffA.2 i (by omega))]
        exact hq
      rw [hout, ih _ _ (by omega) (by omega) hagree2 hbound2 hrrest]
    · have hcB : ¬ (B.getD r {}).isConcept = true := by
        rw [← eraseParent_isConcept _ _ hchild]
        exact hc
      rw [if_neg hc, if_neg hcB]
      have hname := eraseParent_name _ _ hchild
      have hdyn := eraseParent_dynParams _ _ hchild
      have hpar : resolveChildParams encA dl (A.getD r {})
          = resolveChildParams encB dl (B.getD r {}) := by
        simp only [resolveChildParams, hdyn, eraseParent_lookup _ _ henc]
      rw [hname, hpar, ih _ _ hA hB hagree hbound hrrest]

theorem resolveConceptH_congr (fuel : Nat) (dl : List (String × String)) :
    ∀ (n : Nat) (A B : ConceptHeap) (cA cB : HStep),
      n ≤ A.length → n ≤ B.length → heapsAgreeBelow n A B → heapRefsBounded n A →
      eraseParent cA = eraseParent cB → (∀ r ∈ cA.children, r < n) →
      (resolveConceptH fuel dl A cA).2 = (resolveConceptH fuel dl B cB).2 := by
  induction fuel with
  | zero => intro n A B cA cB _ _ _ _ _ _; simp [resolveConceptH]
  | succ fuel ih =>
    intro n A B cA cB hA hB hagree hbound hc hrefs
    have hname := eraseParent_name _ _ hc
    have hdyn := eraseParent_dynParams _ _ hc
    have hpopc : eraseParent (populateConceptDynamicParams dl cA)
        = eraseParent (populateConceptDynamicParams dl cB) := by
      have h2 := eraseParent_isConcept _ _ hc
      have h3 := eraseParent_children _ _ hc
      simp only [populateConceptDynamicParams, eraseParent]
      simp [hname, h2, h3, hdyn]
    have hagree1 : heapsAgreeBelow n (A ++ [populateConceptDynamicParams dl cA])
        (B ++ [populateConceptDynamicParams dl cB]) := by
      intro i hi
      rw [List.getD_append _ _ _ _ (by omega), List.getD_append _ _ _ _ (by omega)]
      exact hagree i hi
    have hbound1 : heapRefsBounded n (A ++ [populateConceptDynamicParams dl cA]) := by
      intro i hi q hq
      refine hbound i hi q ?_
      rw [List.getD_append _ _ _ _ (by omega)] at hq
      exact hq
    have hchrefs : ∀ q ∈ (populateConceptDynamicParams dl cA).children, q < n := by
      intro q hq
      exact hrefs q hq
    have hch := resolveConceptChildren_congr (resolveConceptH fuel dl)
      (resolveConceptH fuel dl) n (resolveConceptH_effect fuel dl)
      (resolveConceptH_effect fuel dl) (ih n) (populateConceptDynamicParams dl cA)
      (populateConceptDynamicParams dl cB) hpopc A.length B.length dl
      (populateConceptDynamicParams dl cA).children
      (A ++ [populateConceptDynamicParams dl cA])
      (B ++ [populateConceptDynamicParams dl cB])
      (by simp; omega) (by simp; omega) hagree1 hbound1 hchrefs
    have hchB : (populateConceptDynamicParams dl cA).children
        = (populateConceptDynamicParams dl cB).children :=
      eraseParent_children _ _ hpopc
    have hname2 : (populateConceptDynamicParams dl cA).name
        = (populateConceptDynamicParams dl cB).name := eraseParent_name _ _ hpopc
    have hlk : (populateConceptDynamicParams dl cA).lookup
        = (populateConceptDynamicParams dl cB).lookup := eraseParent_lookup _ _ hpopc
    simp only [resolveConceptH]
    rw [← hchB, hch, hname2, hlk]

/-- Counterexample for C9: resolving the demonstration template (a concept
whose only child is itself a concept, shared on the heap) rebinds the
shared child step's parent back-reference in place — the static template
is mutated, contradicting "the static concept template is never mutated
(including its child steps)". -/
theorem C9_counterexample :
    ((resolveConceptH 3 [("p", "v0")] demoConceptHeap demoTemplateRoot).1.getD 1 {}).parent
      ≠ (demoConceptHeap.getD 1 {}).parent := by
  decide

/-- C9 (amended): per-invocation resolution mutates the shared static
template at most in the parent back-references of its (shared) child
steps — every existing heap entry is unchanged up to its parent field and
the heap only grows — and, because each resolution rebinds those parent
pointers before using them, a second resolution against another data-table
row produces exactly the output (parameter values included) it would
produce from the pristine template: no state leaks from the first
resolution into the second. -/
theorem C9_amended_parent_rebinding_only :
    (∀ (fuel : Nat) (dl : List (String × String)) (heap : ConceptHeap) (c : HStep),
      heap.length ≤ (resolveConceptH fuel dl heap c).1.length
      ∧ ∀ i, i < heap.length →
          eraseParent ((resolveConceptH fuel dl heap c).1.getD i {})
            = eraseParent (heap.getD i {}))
    ∧ (∀ (fuel : Nat) (dl1 dl2 : List (String × String)) (heap : ConceptHeap) (c : HStep),
      heapRefsBounded heap.length heap →
      (∀ r ∈ c.children, r < heap.length) →
      (resolveConceptH fuel dl2 (resolveConceptH fuel dl1 heap c).1 c).2
        = (resolveConceptH fuel dl2 heap c).2) := by
  constructor
  · intro fuel dl heap c
    exact resolveConceptH_effect fuel dl heap c
  · intro fuel dl1 dl2 heap c hbound hrefs
    have heff := resolveConceptH_effect fuel dl1 heap c
    refine resolveConceptH_congr fuel dl2 heap.length
      (resolveConceptH fuel dl1 heap c).1 heap c c heff.1 (le_refl _) ?_ ?_ rfl hrefs
    · intro i hi
      exact heff.2 i hi
    · intro i hi q hq
      refine hbound i hi q ?_
      rw [← eraseParent_children _ _ (heff.2 i hi)]
      exact hq

/-- Witness for C9 (amended): on the demonstration template, resolving a
second row after a first resolution yields exactly the fresh-template
output, and the first resolution left every entry unchanged up to its
parent field. -/
theorem C9_witness :
    ((resolveConceptH 3 [("p", "v1")]
        (resolveConceptH 3 [("p", "v0")] demoConceptHeap demoTemplateRoot).1
        demoTemplateRoot).2
      = (resolveConceptH 3 [("p", "v1")] demoConceptHeap demoTemplateRoot).2)
    ∧ eraseParent ((resolveConceptH 3 [("p", "v0")] demoConceptHeap
        demoTemplateRoot).1.getD 1 {})
      = eraseParent (demoConceptHeap.getD 1 {}) := by
  constructor
  · exact C9_amended_parent_rebinding_only.2 3 [("p", "v0")] [("p", "v1")]
      demoConceptHeap demoTemplateRoot (by unfold heapRefsBounded; decide) (by decide)
  · exact (C9_amended_parent_rebinding_only.1 3 [("p", "v0")] demoConceptHeap
      demoTemplateRoot).2 1 (by decide)

end GaugeExec
